import Mathlib

/-
  Verification of the local-first synchronization engine of the Obsidoist
  plugin (src/todoistService.ts, src/syncManager.ts, src/localState.ts).

  JavaScript objects used as string-keyed maps are modelled as association
  lists with JS semantics: writing an existing key updates it in place,
  writing a new key appends, `delete` removes the binding.  The pieces of
  `ObsidoistLocalState` that the verified operations touch (tasksById,
  idAliasMap, filterResults, queue, lineShadowById) are carried in
  `ServiceState`; fields the embedded operations never read or write
  (projectsById, filterLastUsedAt, status, syncToken, timestamps) are
  omitted.  Timestamps (`Date.now()`) are naturals in milliseconds; the
  random generators `createLocalId` / `createOperationId` are threaded in
  as explicit arguments.
-/

set_option maxHeartbeats 1000000

/-- Association-list lookup, mirroring `obj[key]` returning `undefined`
    (here `none`) for a missing key. -/
def lookupA {α : Type} : List (String × α) → String → Option α
  | [], _ => none
  | (k', v) :: rest, k => if k' = k then some v else lookupA rest k

/-- Association-list write, mirroring `obj[key] = v`: an existing binding is
    updated in place, otherwise the binding is appended. -/
def setA {α : Type} : List (String × α) → String → α → List (String × α)
  | [], k, v => [(k, v)]
  | (k', v') :: rest, k, v =>
      if k' = k then (k, v) :: rest else (k', v') :: setA rest k v

/-- Association-list delete, mirroring `delete obj[key]`. -/
def delA {α : Type} : List (String × α) → String → List (String × α)
  | [], _ => []
  | (k', v') :: rest, k =>
      if k' = k then delA rest k else (k', v') :: delA rest k

theorem lookupA_setA_self {α : Type} (l : List (String × α)) (k : String) (v : α) :
    lookupA (setA l k v) k = some v := by
  induction l with
  | nil => simp [setA, lookupA]
  | cons hd tl ih =>
      obtain ⟨k', v'⟩ := hd
      by_cases h : k' = k
      · subst h
        simp [setA, lookupA]
      · simp [setA, lookupA, h, ih]

theorem lookupA_setA_ne {α : Type} (l : List (String × α)) (k k' : String) (v : α)
    (h : k' ≠ k) : lookupA (setA l k v) k' = lookupA l k' := by
  have h' : ¬ k = k' := fun hh => h hh.symm
  induction l with
  | nil => simp [setA, lookupA, h']
  | cons hd tl ih =>
      obtain ⟨k₀, v₀⟩ := hd
      by_cases h₀ : k₀ = k
      · subst h₀
        simp [setA, lookupA, h']
      · simp [setA, lookupA, h₀, ih]

theorem lookupA_delA_self {α : Type} (l : List (String × α)) (k : String) :
    lookupA (delA l k) k = none := by
  induction l with
  | nil => simp [delA, lookupA]
  | cons hd tl ih =>
      obtain ⟨k', v'⟩ := hd
      by_cases h : k' = k
      · subst h
        simp [delA, ih]
      · simp [delA, lookupA, h, ih]

theorem lookupA_delA_ne {α : Type} (l : List (String × α)) (k k' : String)
    (h : k' ≠ k) : lookupA (delA l k) k' = lookupA l k' := by
  have h' : ¬ k = k' := fun hh => h hh.symm
  induction l with
  | nil => simp [delA]
  | cons hd tl ih =>
      obtain ⟨k₀, v₀⟩ := hd
      by_cases h₀ : k₀ = k
      · subst h₀
        simp [delA, lookupA, h', ih]
      · simp [delA, lookupA, h₀, ih]

theorem lookupA_map_value {α β : Type} (l : List (String × α)) (g : α → β) (k : String) :
    lookupA (l.map (fun kv => (kv.1, g kv.2))) k = (lookupA l k).map g := by
  induction l with
  | nil => simp [lookupA]
  | cons hd tl ih =>
      obtain ⟨k', v⟩ := hd
      by_cases h : k' = k
      · simp [lookupA, h]
      · simp [lookupA, h, ih]

/-- Character-list core of `String.startsWith`, kept kernel-reducible. -/
def listStartsWith : List Char → List Char → Bool
  | _, [] => true
  | [], _ :: _ => false
  | c :: cs, d :: ds => decide (c = d) && listStartsWith cs ds

/-- String `startsWith`, as used by `canonicalId.startsWith('local-')`. -/
def strStartsWith (s p : String) : Bool :=
  listStartsWith s.data p.data

/-- The `type` discriminant of the `SyncOperation` tagged union
    (src/localState.ts). -/
inductive OpKind
  | create
  | update
  | move
  | close
  | reopen
deriving DecidableEq, Repr

/-- Provenance of the last write to a `LocalTaskRecord`:
    `loc` is `'local'`, `rem` is `'remote'`. -/
inductive TaskSource
  | loc
  | rem
deriving DecidableEq, Repr

/-- The `SyncOperation` tagged union of src/localState.ts, flattened into one
    record with a `type` tag.  `localId` is meaningful only for `create`
    operations and `id` only for the others, exactly as in the union; fields a
    variant does not carry stay at their `none` / `""` placeholder. -/
structure SyncOperation where
  type : OpKind
  opId : String
  localId : String
  id : String
  content : String
  projectId : Option String
  dueDate : Option String
  isCompleted : Option Bool
  queuedAt : Nat
  attempts : Nat
  nextRetryAt : Option Nat
  lastError : Option String
deriving DecidableEq, Repr

/-- `LocalTaskRecord` of src/localState.ts. -/
structure LocalTaskRecord where
  id : String
  content : String
  isCompleted : Bool
  projectId : Option String
  dueDate : Option String
  isRecurring : Option Bool
  isDeleted : Option Bool
  source : TaskSource
  updatedAt : Nat
  lastRemoteSeenAt : Option Nat
deriving DecidableEq, Repr

/-- A line/record signature `{content, isCompleted, projectId?, dueDate?}` as
    used for `lineShadowById` entries and parsed line signatures. -/
structure Shadow where
  content : String
  isCompleted : Bool
  projectId : Option String
  dueDate : Option String
deriving DecidableEq, Repr

/-- The slice of `ObsidoistLocalState` read or written by the verified
    operations. -/
structure ServiceState where
  tasksById : List (String × LocalTaskRecord)
  idAliasMap : List (String × String)
  filterResults : List (String × List String)
  queue : List SyncOperation
  lineShadowById : List (String × Shadow)
deriving DecidableEq, Repr

/-- `resolveId` on a bare alias map: `this.localState.idAliasMap[id] ?? id`. -/
def resolveA (am : List (String × String)) (id : String) : String :=
  (lookupA am id).getD id

/-- Public `resolveTaskId` (src/todoistService.ts line 331), delegating to
    `resolveId`. -/
def resolveTaskId (st : ServiceState) (id : String) : String :=
  resolveA st.idAliasMap id

/-- `getCachedTask`: resolve the id and look the record up; the source then
    projects the record to a plain object, which we keep as the record. -/
def getCachedTask (st : ServiceState) (id : String) : Option LocalTaskRecord :=
  lookupA st.tasksById (resolveTaskId st id)

/-- `getLineShadow` (src/todoistService.ts line 346). -/
def getLineShadow (st : ServiceState) (id : String) : Option Shadow :=
  lookupA st.lineShadowById (resolveTaskId st id)

/-- `setLineShadow` (src/todoistService.ts line 351): write under the
    canonical id, and drop a stale entry under the raw id when it is an
    aliased `local-` id. -/
def setLineShadow (st : ServiceState) (id : String) (shadow : Shadow) : ServiceState :=
  let canonical := resolveTaskId st id
  let shadows1 := setA st.lineShadowById canonical shadow
  let shadows2 :=
    if strStartsWith id "local-" ∧ (lookupA st.idAliasMap id).isSome then
      delA shadows1 id
    else shadows1
  { st with lineShadowById := shadows2 }

/-- `moveLineShadow` (src/todoistService.ts line 360). -/
def moveLineShadow (st : ServiceState) (fromId toId : String) : ServiceState :=
  if fromId = toId then st
  else
    let resolvedFrom := resolveTaskId st fromId
    let candidates := if resolvedFrom ≠ fromId then [fromId, resolvedFrom] else [fromId]
    match candidates.findSome? (fun k => lookupA st.lineShadowById k) with
    | none => st
    | some val =>
        let shadows1 := candidates.foldl
          (fun m k => if k ≠ toId then delA m k else m) st.lineShadowById
        { st with lineShadowById := setA shadows1 toId val }

/-- `hasPendingOpsForId` (src/todoistService.ts line 386). -/
def hasPendingOpsForId (st : ServiceState) (id : String) : Bool :=
  let canonical := resolveTaskId st id
  st.queue.any fun op =>
    if op.type = OpKind.create then
      decide (op.localId = canonical) || decide (op.localId = id)
    else
      decide (resolveA st.idAliasMap op.id = canonical)

/-- The in-place mutation of a pending `create` performed by `enqueue` when a
    later operation targets the same still-temporary id
    (src/todoistService.ts lines 408-417). -/
def foldMutate (op existing : SyncOperation) : SyncOperation :=
  if op.type = OpKind.update then
    { existing with content := op.content, dueDate := op.dueDate }
  else if op.type = OpKind.move then
    { existing with projectId := op.projectId }
  else if op.type = OpKind.close then
    { existing with isCompleted := some true }
  else if op.type = OpKind.reopen then
    { existing with isCompleted := some false }
  else existing

/-- The scan of `enqueue`'s first loop: find the first pending `create` whose
    `localId` equals the canonical target and fold the new operation into it;
    `none` when no such `create` is queued. -/
def foldIntoPendingCreate (canonicalId : String) (op : SyncOperation) :
    List SyncOperation → Option (List SyncOperation)
  | [] => none
  | e :: rest =>
      if e.type = OpKind.create ∧ e.localId = canonicalId then
        some (foldMutate op e :: rest)
      else
        match foldIntoPendingCreate canonicalId op rest with
        | some rest' => some (e :: rest')
        | none => none

/-- A backwards scan `for (let i = queue.length - 1; i >= 0; i--)` that
    replaces the last element satisfying `p` by `x`; `none` when no element
    matches. -/
def replaceLast (p : SyncOperation → Bool) (x : SyncOperation) :
    List SyncOperation → Option (List SyncOperation)
  | [] => none
  | e :: rest =>
      match replaceLast p x rest with
      | some rest' => some (e :: rest')
      | none => if p e then some (x :: rest) else none

/-- Predicate of `enqueue`'s `update` coalescing loop. -/
def matchesUpdate (am : List (String × String)) (op prev : SyncOperation) : Bool :=
  decide (prev.type = OpKind.update ∧ resolveA am prev.id = resolveA am op.id)

/-- Predicate of `enqueue`'s `move` coalescing loop. -/
def matchesMove (am : List (String × String)) (op prev : SyncOperation) : Bool :=
  decide (prev.type = OpKind.move ∧ resolveA am prev.id = resolveA am op.id)

/-- Predicate of `enqueue`'s `close`/`reopen` coalescing loop. -/
def matchesToggle (am : List (String × String)) (op prev : SyncOperation) : Bool :=
  decide ((prev.type = OpKind.close ∨ prev.type = OpKind.reopen) ∧
    resolveA am prev.id = resolveA am op.id)

/-- `enqueue` (src/todoistService.ts lines 400-460).  The source's three
    coalescing loops each `return` on success, and at most one of them can
    run for a given `op.type`, so they are rendered as one type dispatch. -/
def enqueue (am : List (String × String)) (q : List SyncOperation)
    (op : SyncOperation) : List SyncOperation :=
  let folded :=
    if op.type ≠ OpKind.create ∧ strStartsWith (resolveA am op.id) "local-" then
      foldIntoPendingCreate (resolveA am op.id) op q
    else none
  match folded with
  | some q' => q'
  | none =>
      let repl :=
        if op.type = OpKind.update then replaceLast (matchesUpdate am op) op q
        else if op.type = OpKind.move then replaceLast (matchesMove am op) op q
        else if op.type = OpKind.close ∨ op.type = OpKind.reopen then
          replaceLast (matchesToggle am op) op q
        else none
      match repl with
      | some q' => q'
      | none => q ++ [op]

/-- The `create` operation object built by `createTask`. -/
def mkCreateOp (opId localId content : String) (projectId dueDate : Option String)
    (queuedAt : Nat) : SyncOperation :=
  ⟨OpKind.create, opId, localId, "", content, projectId, dueDate, none, queuedAt, 0, none, none⟩

/-- The `update` operation object built by `updateTask`. -/
def mkUpdateOp (opId id content : String) (dueDate : Option String)
    (queuedAt : Nat) : SyncOperation :=
  ⟨OpKind.update, opId, "", id, content, none, dueDate, none, queuedAt, 0, none, none⟩

/-- The `move` operation object built by `moveTask`. -/
def mkMoveOp (opId id projectId : String) (queuedAt : Nat) : SyncOperation :=
  ⟨OpKind.move, opId, "", id, "", some projectId, none, none, queuedAt, 0, none, none⟩

/-- The `close` operation object built by `closeTask`. -/
def mkCloseOp (opId id : String) (queuedAt : Nat) : SyncOperation :=
  ⟨OpKind.close, opId, "", id, "", none, none, none, queuedAt, 0, none, none⟩

/-- The `reopen` operation object built by `reopenTask`. -/
def mkReopenOp (opId id : String) (queuedAt : Nat) : SyncOperation :=
  ⟨OpKind.reopen, opId, "", id, "", none, none, none, queuedAt, 0, none, none⟩

/-- `createTask` (src/todoistService.ts line 531).  `createLocalId()` and
    `createOperationId()` are random; the generated values are passed in as
    `localId` and `opId`. -/
def createTask (st : ServiceState) (localId content : String)
    (projectId dueDate : Option String) (opId : String) (now : Nat) : ServiceState :=
  let r : LocalTaskRecord :=
    { id := localId, content := content, isCompleted := false,
      projectId := projectId, dueDate := dueDate,
      isRecurring := some false, isDeleted := some false,
      source := TaskSource.loc, updatedAt := now, lastRemoteSeenAt := none }
  let q' := enqueue st.idAliasMap st.queue (mkCreateOp opId localId content projectId dueDate now)
  { st with tasksById := setA st.tasksById localId r, queue := q' }

/-- `closeTask` (src/todoistService.ts line 553).  The cached record is
    mutated in place (visible under its map key) and `writeTask` re-inserts
    it under `task.id`. -/
def closeTask (st : ServiceState) (id : String) (opId : String) (now : Nat) :
    ServiceState × Bool :=
  let canonical := resolveTaskId st id
  let st1 :=
    match lookupA st.tasksById canonical with
    | some task =>
        let task' := { task with isCompleted := true, updatedAt := now }
        { st with tasksById := setA (setA st.tasksById canonical task') task'.id task' }
    | none => st
  let q' := enqueue st1.idAliasMap st1.queue (mkCloseOp opId canonical now)
  ({ st1 with queue := q' }, true)

/-- `reopenTask` (src/todoistService.ts line 566). -/
def reopenTask (st : ServiceState) (id : String) (opId : String) (now : Nat) :
    ServiceState × Bool :=
  let canonical := resolveTaskId st id
  let st1 :=
    match lookupA st.tasksById canonical with
    | some task =>
        let task' := { task with isCompleted := false, updatedAt := now }
        { st with tasksById := setA (setA st.tasksById canonical task') task'.id task' }
    | none => st
  let q' := enqueue st1.idAliasMap st1.queue (mkReopenOp opId canonical now)
  ({ st1 with queue := q' }, true)

/-- `updateTask` (src/todoistService.ts line 579): update the cached record
    if present, otherwise insert a fresh local record under the canonical id;
    in both cases enqueue an `update` operation and resolve to `true`. -/
def updateTask (st : ServiceState) (id content : String) (dueDate : Option String)
    (opId : String) (now : Nat) : ServiceState × Bool :=
  let canonical := resolveTaskId st id
  let st1 :=
    match lookupA st.tasksById canonical with
    | some task =>
        let task' := { task with content := content, dueDate := dueDate, updatedAt := now }
        { st with tasksById := setA (setA st.tasksById canonical task') task'.id task' }
    | none =>
        let r : LocalTaskRecord :=
          { id := canonical, content := content, isCompleted := false,
            projectId := none, dueDate := dueDate, isRecurring := none,
            isDeleted := some false, source := TaskSource.loc,
            updatedAt := now, lastRemoteSeenAt := none }
        { st with tasksById := setA st.tasksById canonical r }
  let q' := enqueue st1.idAliasMap st1.queue (mkUpdateOp opId canonical content dueDate now)
  ({ st1 with queue := q' }, true)

/-- `moveTask` (src/todoistService.ts line 605). -/
def moveTask (st : ServiceState) (id projectId : String) (opId : String) (now : Nat) :
    ServiceState × Bool :=
  let canonical := resolveTaskId st id
  let st1 :=
    match lookupA st.tasksById canonical with
    | some task =>
        let task' := { task with projectId := some projectId, updatedAt := now }
        { st with tasksById := setA (setA st.tasksById canonical task') task'.id task' }
    | none => st
  let q' := enqueue st1.idAliasMap st1.queue (mkMoveOp opId canonical projectId now)
  ({ st1 with queue := q' }, true)

/-- Truthiness of an optional string (`if (x)` in JS: `undefined` and `""`
    are falsy). -/
def jsTruthyStr : Option String → Bool
  | none => false
  | some s => decide (s ≠ "")

/-- `sigEquals` (src/syncManager.ts line 16): `false` when either side is
    missing, otherwise field-by-field equality with `?? undefined`
    normalisation of the optional fields. -/
def sigEquals : Option Shadow → Option Shadow → Bool
  | some a, some b =>
      decide (a.content = b.content) && decide (a.isCompleted = b.isCompleted) &&
      decide (a.projectId = b.projectId) && decide (a.dueDate = b.dueDate)
  | _, _ => false

/-- The per-line reconciliation of `SyncManager.scanAndSyncFile` for a line
    that carries an id and a checkbox (src/syncManager.ts lines 196-241).
    `existingId` is the already-resolved id from line 181 and `cur` the
    signature parsed from the line (content, due date, project tag, checkbox
    state); parsing itself is outside the verified core.  `opIdU`, `opIdM`
    and `opIdT` stand in for the fresh `createOperationId()` values of the
    update, move and close/reopen calls. -/
def scanLineStep (st : ServiceState) (existingId : String) (cur : Shadow)
    (opIdU opIdM opIdT : String) (now : Nat) : ServiceState :=
  let cached := getCachedTask st existingId
  let prevSig : Option Shadow :=
    match getLineShadow st existingId with
    | some s => some s
    | none =>
        match cached with
        | some t => some ⟨t.content, t.isCompleted, t.projectId, t.dueDate⟩
        | none => none
  match prevSig with
  | none => setLineShadow st existingId cur
  | some prev =>
      if sigEquals (some prev) (some cur) then st
      else
        let st1 :=
          if prev.content ≠ cur.content ∨ prev.dueDate ≠ cur.dueDate then
            (updateTask st existingId cur.content cur.dueDate opIdU now).1
          else st
        let st2 :=
          if jsTruthyStr cur.projectId ∧ prev.projectId ≠ cur.projectId then
            (moveTask st1 existingId (cur.projectId.getD "") opIdM now).1
          else st1
        let st3 :=
          if prev.isCompleted ≠ cur.isCompleted then
            if cur.isCompleted then (closeTask st2 existingId opIdT now).1
            else (reopenTask st2 existingId opIdT now).1
          else st2
        setLineShadow st3 existingId cur

/-- Abstract effect of one `syncDown` loop iteration on the text line:
    left alone, id token rewritten to the canonical id, task markup removed
    (remote tombstone), or rewritten from the remote signature. -/
inductive LineOutcome
  | untouched
  | idRewritten (canonicalId : String)
  | markupRemoved
  | remoteApplied (sig : Shadow)
deriving DecidableEq, Repr

/-- The per-line body of `SyncManager.syncDown` (src/syncManager.ts lines
    298-423) for a line carrying an id and a checkbox.  The line is given by
    its parsed pieces: `rawId` from the id token, the checkbox `statusChar`,
    and the extracted content, due date and project tag.  The returned
    `LineOutcome` abstracts what happens to the line's text. -/
def syncDownLine (st : ServiceState) (rawId : String) (statusChar : Char)
    (localContent : String) (localDueDate localProjectId : Option String) :
    LineOutcome × ServiceState :=
  let existingId := resolveTaskId st rawId
  let cachedTask := getCachedTask st existingId
  let idChanged := rawId ≠ existingId
  let out0 := if idChanged then LineOutcome.idRewritten existingId else LineOutcome.untouched
  let st1 := if idChanged then moveLineShadow st rawId existingId else st
  match cachedTask with
  | none => (out0, st1)
  | some t =>
      if hasPendingOpsForId st1 existingId then (out0, st1)
      else if t.isDeleted = some true then (LineOutcome.markupRemoved, st1)
      else
        let remoteStatus : Char := if t.isCompleted then 'x' else ' '
        let remoteSig : Shadow := ⟨t.content, t.isCompleted, t.projectId, t.dueDate⟩
        let localSig : Shadow := ⟨localContent, statusChar != ' ', localProjectId, localDueDate⟩
        let shadowSig := getLineShadow st1 existingId
        if (match shadowSig with
            | some sh => !(sigEquals (some sh) (some localSig))
            | none => false) then (out0, st1)
        else
          if statusChar ≠ remoteStatus ∨ localContent ≠ t.content ∨
              localDueDate ≠ t.dueDate ∨ localProjectId ≠ t.projectId then
            (LineOutcome.remoteApplied remoteSig, setLineShadow st1 existingId remoteSig)
          else (out0, st1)

/-- One `temp_id_mapping` entry of `applySyncApiTempIdMapping`
    (src/todoistService.ts lines 867-884): write the alias, relocate the
    line shadow, relocate the task record when the canonical slot is free,
    and rewrite filter cache entries. -/
def applyTempIdEntry (st : ServiceState) (tempId newId : String) : ServiceState :=
  let st1 := { st with idAliasMap := setA st.idAliasMap tempId newId }
  let st2 := moveLineShadow st1 tempId newId
  let st3 :=
    match lookupA st2.tasksById tempId with
    | some existing =>
        match lookupA st2.tasksById newId with
        | none =>
            let moved := { existing with id := newId }
            { st2 with tasksById := setA (delA st2.tasksById tempId) newId moved }
        | some _ => st2
    | none => st2
  let newFilters := st3.filterResults.map
    (fun kv => (kv.1, kv.2.map (fun x => if x = tempId then newId else x)))
  { st3 with filterResults := newFilters }

/-- `applySyncApiTempIdMapping` (src/todoistService.ts line 864): apply the
    entries of the response's `temp_id_mapping` in order.  The
    `id-mapping-updated` event emission is UI-side and not modelled. -/
def applySyncApiTempIdMapping (st : ServiceState) (mapping : List (String × String)) :
    ServiceState :=
  mapping.foldl (fun s e => applyTempIdEntry s e.1 e.2) st

/-- Per-command status in the flush response's `sync_status` map: the exact
    string `'ok'`, or anything else, which the source treats as a failure and
    reduces to an error text (`toText(status.error)` plus details). -/
inductive CmdStatus
  | ok
  | failed (errText : String)
deriving DecidableEq, Repr

/-- The fields of a response item inspected for close/reopen confirmation
    (`item.checked === true || item.is_archived === true`). -/
structure RespItem where
  checked : Bool
  isArchived : Bool
deriving DecidableEq, Repr

/-- Exponential backoff delay (src/todoistService.ts lines 1027 and 1052):
    `Math.min(30 * 60 * 1000, 2000 * Math.pow(2, Math.max(0, attempts - 1)))`
    where `attempts` is the value after the increment. -/
def backoffDelay (attempts : Nat) : Nat :=
  min (30 * 60 * 1000) (2000 * 2 ^ (Nat.max 0 (attempts - 1)))

/-- The mutation applied to a queued operation whose command is reported
    failed (src/todoistService.ts lines 1045-1053): bump `attempts`, record
    the composed error text in `lastError`, schedule `nextRetryAt`. -/
def applyCommandFailure (op : SyncOperation) (errText : String) (now : Nat) :
    SyncOperation :=
  let attempts' := op.attempts + 1
  { op with attempts := attempts', lastError := some errText,
            nextRetryAt := some (now + backoffDelay attempts') }

/-- The mutation applied to a `close`/`reopen` operation reported `'ok'` whose
    completion state is not confirmed by the response's item list
    (src/todoistService.ts lines 1023-1037). -/
def notConfirmedFailure (op : SyncOperation) (id : String) (now : Nat) :
    SyncOperation :=
  let attempts' := op.attempts + 1
  { op with attempts := attempts',
            lastError := some ("Sync API ok but status not confirmed in response items. id=" ++ id),
            nextRetryAt := some (now + backoffDelay attempts') }

/-- Close/reopen confirmation against the response's item list
    (src/todoistService.ts lines 1018-1022): the target item must be present
    and its completion flag must match the direction of the toggle. -/
def toggleConfirmed (items : List (String × RespItem)) (id : String)
    (op : SyncOperation) : Bool :=
  match lookupA items id with
  | some it => (it.checked || it.isArchived) == decide (op.type = OpKind.close)
  | none => false

/-- The response-processing loop of `flushQueueToRemoteViaSyncApi`
    (src/todoistService.ts lines 1008-1061): walk the queue, removing
    operations whose command is reported `'ok'` (for close/reopen only when
    the item list confirms the new completion state) and applying the failure
    mutation otherwise; operations with no reported status are kept as they
    are.  `statusOf` is the `sync_status` map keyed by `opId`, `items` the
    response items keyed by id.  Status-bar messages and `Notice` calls are
    UI-side and not modelled. -/
def processFlushQueue (am : List (String × String))
    (statusOf : String → Option CmdStatus) (items : List (String × RespItem))
    (now : Nat) : List SyncOperation → List SyncOperation
  | [] => []
  | op :: rest =>
      match statusOf op.opId with
      | none => op :: processFlushQueue am statusOf items now rest
      | some CmdStatus.ok =>
          if op.type = OpKind.close ∨ op.type = OpKind.reopen then
            let id := resolveA am op.id
            if toggleConfirmed items id op then
              processFlushQueue am statusOf items now rest
            else
              notConfirmedFailure op id now :: processFlushQueue am statusOf items now rest
          else processFlushQueue am statusOf items now rest
      | some (CmdStatus.failed msg) =>
          applyCommandFailure op msg now :: processFlushQueue am statusOf items now rest

/-- Untyped JSON-like values, for the persisted-snapshot loader
    `migrateLocalState` which receives `raw: any`.  Numbers are modelled as
    integers (every number the loader inspects is an integral timestamp or
    counter); object keys follow JS insertion-order semantics. -/
inductive JVal
  | null
  | bool (b : Bool)
  | num (n : Int)
  | str (s : String)
  | arr (xs : List JVal)
  | obj (kvs : List (String × JVal))

/-- JS truthiness on a `JVal` (`!raw`): `null`, `false`, `0` and `""` are
    falsy; arrays and objects are truthy. -/
def jsFalsy : JVal → Bool
  | JVal.null => true
  | JVal.bool b => !b
  | JVal.num n => decide (n = 0)
  | JVal.str s => decide (s = "")
  | JVal.arr _ => false
  | JVal.obj _ => false

/-- `typeof v === 'object'` (true for `null`, arrays and objects). -/
def typeofObject : JVal → Bool
  | JVal.null => true
  | JVal.arr _ => true
  | JVal.obj _ => true
  | _ => false

/-- Property read `o[k]`; `none` models `undefined` (missing key or
    non-object receiver). -/
def jLookup (o : JVal) (k : String) : Option JVal :=
  match o with
  | JVal.obj kvs => lookupA kvs k
  | _ => none

/-- Property write on an object value; other receivers are left alone. -/
def jSet (o : JVal) (k : String) (v : JVal) : JVal :=
  match o with
  | JVal.obj kvs => JVal.obj (setA kvs k v)
  | other => other

/-- Nullish coalescing `x ?? y` for a property read: `null` and missing both
    fall through. -/
def jNullish : Option JVal → Option JVal
  | some JVal.null => none
  | some v => some v
  | none => none

mutual

/-- `String(v)` for the values the loader stringifies: primitives as JS
    prints them, arrays as `join(',')` with `null` elements blank, objects as
    `[object Object]`. -/
def jsStringOf : JVal → String
  | JVal.null => "null"
  | JVal.bool true => "true"
  | JVal.bool false => "false"
  | JVal.num n => toString n
  | JVal.str s => s
  | JVal.arr xs => jsArrJoin xs
  | JVal.obj _ => "[object Object]"

/-- `Array.prototype.join(',')` over stringified elements. -/
def jsArrJoin : List JVal → String
  | [] => ""
  | [JVal.null] => ""
  | [x] => jsStringOf x
  | JVal.null :: rest => "," ++ jsArrJoin rest
  | x :: rest => jsStringOf x ++ "," ++ jsArrJoin rest

end

/-- Hex-digit test for the UUID check. -/
def isHexDigit (c : Char) : Bool :=
  (decide ('0' ≤ c) && decide (c ≤ '9')) ||
  (decide ('a' ≤ c) && decide (c ≤ 'f')) ||
  (decide ('A' ≤ c) && decide (c ≤ 'F'))

/-- The `isUuid` regex of src/localState.ts line 122,
    `/^[0-9a-f]{8}-[0-9a-f]{4}-[1-5][0-9a-f]{3}-[89ab][0-9a-f]{3}-[0-9a-f]{12}$/i`,
    expanded positionally. -/
def isUuid (s : String) : Bool :=
  let cs := s.data
  decide (cs.length = 36) &&
  (List.range 36).all fun i =>
    let c := cs.getD i ' '
    if i = 8 ∨ i = 13 ∨ i = 18 ∨ i = 23 then decide (c = '-')
    else if i = 14 then decide ('1' ≤ c) && decide (c ≤ '5')
    else if i = 19 then [ '8', '9', 'a', 'b', 'A', 'B' ].contains c
    else isHexDigit c

/-- `typeof x === 'string' ? x : undefined` on a property read. -/
def strFieldOpt (o : Option JVal) : Option JVal :=
  match o with
  | some (JVal.str s) => some (JVal.str s)
  | _ => none

/-- `Number.isFinite(x) ? x : undefined` on a property read (every modelled
    number is finite). -/
def numFieldOpt (o : Option JVal) : Option JVal :=
  match o with
  | some (JVal.num n) => some (JVal.num n)
  | _ => none

/-- `typeof x === 'boolean' ? x : undefined` on a property read. -/
def boolFieldOpt (o : Option JVal) : Option JVal :=
  match o with
  | some (JVal.bool b) => some (JVal.bool b)
  | _ => none

/-- An optional object entry: fields assigned `undefined` in the source are
    the fields a persisted snapshot simply lacks, so they are modelled as
    absent keys. -/
def optEntry (k : String) (v : Option JVal) : List (String × JVal) :=
  match v with
  | some x => [(k, x)]
  | none => []

/-- The queue-entry normalisation of `migrateLocalState`
    (src/localState.ts lines 140-205), for the entry at index `i`; `fresh i`
    stands in for the `createOperationId()` drawn when the stored `opId` is
    not a UUID.  Returns `none` where the source maps the entry to `null`
    (later filtered out). -/
def migrateQueueEntry (fresh : Nat → String) (now : Int) (i : Nat) (op : JVal) :
    Option JVal :=
  match op with
  | JVal.obj kvs =>
      match lookupA kvs "type" with
      | some (JVal.str ty) =>
          let opIdRaw := match lookupA kvs "opId" with
            | some (JVal.str s) => s
            | _ => ""
          let opId := if isUuid opIdRaw then opIdRaw else fresh i
          let attempts : Int := match numFieldOpt (lookupA kvs "attempts") with
            | some (JVal.num n) => n
            | _ => 0
          let queuedAt : Int := match numFieldOpt (lookupA kvs "queuedAt") with
            | some (JVal.num n) => n
            | _ => now
          let nextRetryAt := numFieldOpt (lookupA kvs "nextRetryAt")
          let lastError := strFieldOpt (lookupA kvs "lastError")
          if ty = "create" then
            let localIdV : JVal :=
              match jNullish (lookupA kvs "localId") with
              | some v => v
              | none =>
                  match jNullish (lookupA kvs "id") with
                  | some v => v
                  | none => JVal.str ""
            let contentV : JVal :=
              match jNullish (lookupA kvs "content") with
              | some v => v
              | none => JVal.str ""
            some (JVal.obj
              ([("type", JVal.str "create"), ("opId", JVal.str opId),
                ("localId", JVal.str (jsStringOf localIdV)),
                ("content", JVal.str (jsStringOf contentV))]
               ++ optEntry "projectId" (strFieldOpt (lookupA kvs "projectId"))
               ++ optEntry "dueDate" (strFieldOpt (lookupA kvs "dueDate"))
               ++ optEntry "isCompleted" (boolFieldOpt (lookupA kvs "isCompleted"))
               ++ [("queuedAt", JVal.num queuedAt), ("attempts", JVal.num attempts)]
               ++ optEntry "nextRetryAt" nextRetryAt
               ++ optEntry "lastError" lastError))
          else if ty = "move" then
            let idV : JVal :=
              match jNullish (lookupA kvs "id") with
              | some v => v
              | none => JVal.str ""
            let projV : JVal :=
              match jNullish (lookupA kvs "projectId") with
              | some v => v
              | none => JVal.str ""
            some (JVal.obj
              ([("type", JVal.str "move"), ("opId", JVal.str opId),
                ("id", JVal.str (jsStringOf idV)),
                ("projectId", JVal.str (jsStringOf projV)),
                ("queuedAt", JVal.num queuedAt), ("attempts", JVal.num attempts)]
               ++ optEntry "nextRetryAt" nextRetryAt
               ++ optEntry "lastError" lastError))
          else if ty = "update" then
            let idV : JVal :=
              match jNullish (lookupA kvs "id") with
              | some v => v
              | none => JVal.str ""
            let contentV : JVal :=
              match jNullish (lookupA kvs "content") with
              | some v => v
              | none => JVal.str ""
            some (JVal.obj
              ([("type", JVal.str "update"), ("opId", JVal.str opId),
                ("id", JVal.str (jsStringOf idV)),
                ("content", JVal.str (jsStringOf contentV))]
               ++ optEntry "dueDate" (strFieldOpt (lookupA kvs "dueDate"))
               ++ [("queuedAt", JVal.num queuedAt), ("attempts", JVal.num attempts)]
               ++ optEntry "nextRetryAt" nextRetryAt
               ++ optEntry "lastError" lastError))
          else if ty = "close" ∨ ty = "reopen" then
            let idV : JVal :=
              match jNullish (lookupA kvs "id") with
              | some v => v
              | none => JVal.str ""
            some (JVal.obj
              ([("type", JVal.str ty), ("opId", JVal.str opId),
                ("id", JVal.str (jsStringOf idV)),
                ("queuedAt", JVal.num queuedAt), ("attempts", JVal.num attempts)]
               ++ optEntry "nextRetryAt" nextRetryAt
               ++ optEntry "lastError" lastError))
          else none
      | _ => none
  | _ => none

/-- `(state.k && typeof state.k === 'object') ? state.k : {}` — the container
    defaulting of the legacy merge (src/localState.ts lines 209-216). -/
def containerOr (raw : JVal) (k : String) : JVal :=
  match jLookup raw k with
  | some v => if !jsFalsy v && typeofObject v then v else JVal.obj []
  | none => JVal.obj []

/-- `createDefaultLocalState()` (src/localState.ts line 88) as a JSON
    value. -/
def createDefaultLocalState : JVal :=
  JVal.obj
    [("schemaVersion", JVal.num 2), ("tasksById", JVal.obj []),
     ("projectsById", JVal.obj []), ("idAliasMap", JVal.obj []),
     ("filterResults", JVal.obj []), ("filterLastUsedAt", JVal.obj []),
     ("queue", JVal.arr []), ("status", JVal.obj []),
     ("lineShadowById", JVal.obj [])]

/-- `state.schemaVersion === 2`. -/
def isSchemaV2 (raw : JVal) : Bool :=
  match jLookup raw "schemaVersion" with
  | some (JVal.num n) => decide (n = 2)
  | _ => false

/-- `migrateLocalState` (src/localState.ts line 126).  `fresh` supplies the
    `createOperationId()` value for the queue entry at a given index and
    `now` the `Date.now()` default for a missing `queuedAt`. -/
def migrateLocalState (fresh : Nat → String) (now : Int) (raw : JVal) : JVal :=
  if jsFalsy raw || !typeofObject raw then createDefaultLocalState
  else if isSchemaV2 raw then
    let needPatch :=
      match jLookup raw "lineShadowById" with
      | some v => jsFalsy v || !typeofObject v
      | none => true
    if needPatch then jSet raw "lineShadowById" (JVal.obj []) else raw
  else
    let queueRaw : List JVal :=
      match jLookup raw "queue" with
      | some (JVal.arr xs) => xs
      | _ => []
    let queue := queueRaw.enum.filterMap (fun iv => migrateQueueEntry fresh now iv.1 iv.2)
    JVal.obj
      ([("schemaVersion", JVal.num 2),
        ("tasksById", containerOr raw "tasksById"),
        ("projectsById", containerOr raw "projectsById"),
        ("idAliasMap", containerOr raw "idAliasMap"),
        ("filterResults", containerOr raw "filterResults"),
        ("filterLastUsedAt", containerOr raw "filterLastUsedAt"),
        ("queue", JVal.arr queue),
        ("status", containerOr raw "status"),
        ("lineShadowById", containerOr raw "lineShadowById")]
       ++ optEntry "syncToken" (strFieldOpt (jLookup raw "syncToken"))
       ++ optEntry "lastFullSyncAt" (jLookup raw "lastFullSyncAt")
       ++ optEntry "lastProjectsSyncAt" (jLookup raw "lastProjectsSyncAt"))

/-- Shape check: a required field that must be a string. -/
def jIsStr (o : Option JVal) : Bool :=
  match o with
  | some (JVal.str _) => true
  | _ => false

/-- Shape check: a required field that must be a number. -/
def jIsNum (o : Option JVal) : Bool :=
  match o with
  | some (JVal.num _) => true
  | _ => false

/-- Shape check: an optional string field (absent or a string). -/
def jOptStr (o : Option JVal) : Bool :=
  match o with
  | none => true
  | some (JVal.str _) => true
  | _ => false

/-- Shape check: an optional number field. -/
def jOptNum (o : Option JVal) : Bool :=
  match o with
  | none => true
  | some (JVal.num _) => true
  | _ => false

/-- Shape check: an optional boolean field. -/
def jOptBool (o : Option JVal) : Bool :=
  match o with
  | none => true
  | some (JVal.bool _) => true
  | _ => false

/-- Well-formedness of a queue entry as a `SyncOperation` of
    src/localState.ts: the common fields have the right shapes and the
    variant selected by `type` carries its required payload. -/
def wellFormedOpJ (v : JVal) : Bool :=
  match v with
  | JVal.obj kvs =>
      jIsStr (lookupA kvs "opId") && jIsNum (lookupA kvs "queuedAt") &&
      jIsNum (lookupA kvs "attempts") && jOptNum (lookupA kvs "nextRetryAt") &&
      jOptStr (lookupA kvs "lastError") &&
      (match lookupA kvs "type" with
       | some (JVal.str "create") =>
           jIsStr (lookupA kvs "localId") && jIsStr (lookupA kvs "content") &&
           jOptStr (lookupA kvs "projectId") && jOptStr (lookupA kvs "dueDate") &&
           jOptBool (lookupA kvs "isCompleted")
       | some (JVal.str "update") =>
           jIsStr (lookupA kvs "id") && jIsStr (lookupA kvs "content") &&
           jOptStr (lookupA kvs "dueDate")
       | some (JVal.str "move") =>
           jIsStr (lookupA kvs "id") && jIsStr (lookupA kvs "projectId")
       | some (JVal.str "close") => jIsStr (lookupA kvs "id")
       | some (JVal.str "reopen") => jIsStr (lookupA kvs "id")
       | _ => false)
  | _ => false

theorem foldMutate_type (op e : SyncOperation) : (foldMutate op e).type = e.type := by
  unfold foldMutate
  repeat' split
  all_goals rfl

theorem foldMutate_id (op e : SyncOperation) : (foldMutate op e).id = e.id := by
  unfold foldMutate
  repeat' split
  all_goals rfl

theorem foldMutate_localId (op e : SyncOperation) : (foldMutate op e).localId = e.localId := by
  unfold foldMutate
  repeat' split
  all_goals rfl

theorem fold_none_of_no_create (c : String) (op : SyncOperation) :
    ∀ l : List SyncOperation,
      (∀ e ∈ l, ¬(e.type = OpKind.create ∧ e.localId = c)) →
      foldIntoPendingCreate c op l = none := by
  intro l
  induction l with
  | nil => intro _; rfl
  | cons e rest ih =>
      intro h
      have he := h e (List.mem_cons_self e rest)
      have hrest := ih (fun x hx => h x (List.mem_cons_of_mem e hx))
      simp [foldIntoPendingCreate, he, hrest]

theorem fold_decomp (c : String) (op : SyncOperation) (l₁ l₂ : List SyncOperation)
    (cc : SyncOperation)
    (h1 : ∀ e ∈ l₁, ¬(e.type = OpKind.create ∧ e.localId = c))
    (h2 : cc.type = OpKind.create) (h3 : cc.localId = c) :
    foldIntoPendingCreate c op (l₁ ++ cc :: l₂) = some (l₁ ++ foldMutate op cc :: l₂) := by
  induction l₁ with
  | nil => simp [foldIntoPendingCreate, h2, h3]
  | cons e rest ih =>
      have he := h1 e (List.mem_cons_self e rest)
      have ih' := ih (fun x hx => h1 x (List.mem_cons_of_mem e hx))
      simp [foldIntoPendingCreate, he, ih']

theorem replaceLast_none_of_no_match (p : SyncOperation → Bool) (x : SyncOperation) :
    ∀ l : List SyncOperation, (∀ e ∈ l, p e = false) → replaceLast p x l = none := by
  intro l
  induction l with
  | nil => intro _; rfl
  | cons e rest ih =>
      intro h
      have he := h e (List.mem_cons_self e rest)
      have hrest := ih (fun y hy => h y (List.mem_cons_of_mem e hy))
      simp [replaceLast, he, hrest]

theorem replaceLast_decomp (p : SyncOperation → Bool) (x : SyncOperation)
    (l₁ l₂ : List SyncOperation) (e : SyncOperation)
    (h1 : p e = true) (h2 : ∀ e' ∈ l₂, p e' = false) :
    replaceLast p x (l₁ ++ e :: l₂) = some (l₁ ++ x :: l₂) := by
  induction l₁ with
  | nil =>
      have hrest := replaceLast_none_of_no_match p x l₂ h2
      simp [replaceLast, hrest, h1]
  | cons a rest ih =>
      simp [replaceLast, ih]

theorem replaceLast_none_forall (p : SyncOperation → Bool) (x : SyncOperation) :
    ∀ l : List SyncOperation, replaceLast p x l = none → ∀ e ∈ l, p e = false := by
  intro l
  induction l with
  | nil => intro _ e he; simp at he
  | cons a rest ih =>
      intro h e he
      unfold replaceLast at h
      cases hr : replaceLast p x rest with
      | some rest' => rw [hr] at h; cases h
      | none =>
          rw [hr] at h
          by_cases hp : p a = true
          · rw [if_pos hp] at h; cases h
          · have hpa : p a = false := by
              cases hb : p a with
              | true => exact absurd hb hp
              | false => rfl
            rcases List.mem_cons.mp he with he' | hmem
            · rw [he']; exact hpa
            · exact ih hr e hmem

theorem replaceLast_shape (p : SyncOperation → Bool) (x : SyncOperation) :
    ∀ (l l' : List SyncOperation), replaceLast p x l = some l' →
      ∃ l₁ e l₂, l = l₁ ++ e :: l₂ ∧ p e = true ∧ (∀ e' ∈ l₂, p e' = false) ∧
        l' = l₁ ++ x :: l₂ := by
  intro l
  induction l with
  | nil => intro l' h; simp [replaceLast] at h
  | cons a rest ih =>
      intro l' h
      unfold replaceLast at h
      cases hr : replaceLast p x rest with
      | some rest' =>
          rw [hr] at h
          obtain ⟨l₁, e, l₂, hdec, hpe, hfa, hres⟩ := ih rest' hr
          refine ⟨a :: l₁, e, l₂, ?_, hpe, hfa, ?_⟩
          · simp [hdec]
          · cases h
            simp [hres]
      | none =>
          rw [hr] at h
          by_cases hp : p a = true
          · rw [if_pos hp] at h
            cases h
            exact ⟨[], a, rest, by simp, hp, replaceLast_none_forall p x rest hr, by simp⟩
          · rw [if_neg hp] at h
            cases h

theorem replaceLast_mem (p : SyncOperation → Bool) (x : SyncOperation)
    (l l' : List SyncOperation) (h : replaceLast p x l = some l') : x ∈ l' := by
  obtain ⟨l₁, e, l₂, _, _, _, hres⟩ := replaceLast_shape p x l l' h
  rw [hres]
  simp

/-- Claim C1: when the queue holds a pending `create` for a temporary id and
    a later `update`/`move`/`close`/`reopen` resolves to that id, `enqueue`
    folds the new intent into the first such `create` (content/dueDate from an
    update, projectId from a move, completion flag from close/reopen) and
    appends nothing; in particular `createTask` followed by `closeTask` on the
    fresh local id leaves exactly one queued `create` with
    `isCompleted = true` and no `close` operation. -/
theorem claim_C1_create_folding :
    (∀ (am : List (String × String)) (l₁ l₂ : List SyncOperation)
       (c op : SyncOperation),
       op.type ≠ OpKind.create →
       strStartsWith (resolveA am op.id) "local-" = true →
       c.type = OpKind.create → c.localId = resolveA am op.id →
       (∀ e ∈ l₁, ¬(e.type = OpKind.create ∧ e.localId = resolveA am op.id)) →
       enqueue am (l₁ ++ c :: l₂) op = l₁ ++ foldMutate op c :: l₂) ∧
    (∀ (st : ServiceState) (L content : String) (pid due : Option String)
       (opId1 opId2 : String) (now1 now2 : Nat),
       st.queue = [] → lookupA st.idAliasMap L = none →
       strStartsWith L "local-" = true →
       (closeTask (createTask st L content pid due opId1 now1) L opId2 now2).1.queue =
         [⟨OpKind.create, opId1, L, "", content, pid, due, some true, now1, 0, none, none⟩]) := by
  constructor
  · intro am l₁ l₂ c op hop hlocal hc hcl h₁
    have hfold := fold_decomp (resolveA am op.id) op l₁ l₂ c h₁ hc hcl
    simp [enqueue, hop, hlocal, hfold]
  · intro st L content pid due opId1 opId2 now1 now2 hq hal hL
    have hres : resolveA st.idAliasMap L = L := by simp [resolveA, hal]
    simp [createTask, closeTask, enqueue, mkCreateOp, mkCloseOp, resolveTaskId, hres, hL,
      hq, foldIntoPendingCreate, foldMutate, replaceLast, lookupA_setA_self]

/-- Witness for C1: both parts at concrete inputs. -/
theorem claim_C1_witness :
    enqueue [] [mkCreateOp "op1" "local-9" "a" none none 3] (mkCloseOp "op2" "local-9" 4) =
      [⟨OpKind.create, "op1", "local-9", "", "a", none, none, some true, 3, 0, none, none⟩] ∧
    (closeTask (createTask ⟨[], [], [], [], []⟩ "local-1" "x" none none "op1" 5)
        "local-1" "op2" 6).1.queue =
      [⟨OpKind.create, "op1", "local-1", "", "x", none, none, some true, 5, 0, none, none⟩] := by
  constructor
  · have h := claim_C1_create_folding.1 [] [] []
      (mkCreateOp "op1" "local-9" "a" none none 3) (mkCloseOp "op2" "local-9" 4)
      (by decide) (by decide) (by decide) (by decide) (by simp)
    simpa using h
  · exact claim_C1_create_folding.2 ⟨[], [], [], [], []⟩ "local-1" "x" none none
      "op1" "op2" 5 6 rfl rfl (by decide)

/-- Claim C2: with no pending `create` for the resolved target, `enqueue`
    replaces the most recent queued `update` (resp. `move`) for the same
    resolved id, and a `close`/`reopen` replaces the most recent queued
    completion-toggle for that id; consequently `update(id, A)` then
    `update(id, B)` leaves exactly one queued `update` for the id, with
    payload `B`. -/
theorem claim_C2_coalescing :
    (∀ (am : List (String × String)) (l₁ l₂ : List SyncOperation)
       (prev op : SyncOperation),
       op.type = OpKind.update → prev.type = OpKind.update →
       resolveA am prev.id = resolveA am op.id →
       (∀ e ∈ l₂, matchesUpdate am op e = false) →
       (∀ e ∈ l₁ ++ prev :: l₂, ¬(e.type = OpKind.create ∧ e.localId = resolveA am op.id)) →
       enqueue am (l₁ ++ prev :: l₂) op = l₁ ++ op :: l₂) ∧
    (∀ (am : List (String × String)) (l₁ l₂ : List SyncOperation)
       (prev op : SyncOperation),
       op.type = OpKind.move → prev.type = OpKind.move →
       resolveA am prev.id = resolveA am op.id →
       (∀ e ∈ l₂, matchesMove am op e = false) →
       (∀ e ∈ l₁ ++ prev :: l₂, ¬(e.type = OpKind.create ∧ e.localId = resolveA am op.id)) →
       enqueue am (l₁ ++ prev :: l₂) op = l₁ ++ op :: l₂) ∧
    (∀ (am : List (String × String)) (l₁ l₂ : List SyncOperation)
       (prev op : SyncOperation),
       (op.type = OpKind.close ∨ op.type = OpKind.reopen) →
       (prev.type = OpKind.close ∨ prev.type = OpKind.reopen) →
       resolveA am prev.id = resolveA am op.id →
       (∀ e ∈ l₂, matchesToggle am op e = false) →
       (∀ e ∈ l₁ ++ prev :: l₂, ¬(e.type = OpKind.create ∧ e.localId = resolveA am op.id)) →
       enqueue am (l₁ ++ prev :: l₂) op = l₁ ++ op :: l₂) ∧
    (∀ (am : List (String × String)) (q : List SyncOperation)
       (opA opB : SyncOperation),
       opA.type = OpKind.update → opB.type = OpKind.update →
       resolveA am opA.id = resolveA am opB.id →
       (∀ e ∈ q, matchesUpdate am opB e = false) →
       (∀ e ∈ q, ¬(e.type = OpKind.create ∧ e.localId = resolveA am opB.id)) →
       (enqueue am (enqueue am q opA) opB).filter (matchesUpdate am opB) = [opB]) := by
  refine ⟨?_, ?_, ?_, ?_⟩
  · intro am l₁ l₂ prev op hop hprev hid hl₂ hnoc
    have hnone := fold_none_of_no_create (resolveA am op.id) op (l₁ ++ prev :: l₂) hnoc
    have hp : matchesUpdate am op prev = true := by
      simp [matchesUpdate, hprev, hid]
    have hrepl := replaceLast_decomp (matchesUpdate am op) op l₁ l₂ prev hp hl₂
    simp [enqueue, hop, hnone, hrepl]
  · intro am l₁ l₂ prev op hop hprev hid hl₂ hnoc
    have hnone := fold_none_of_no_create (resolveA am op.id) op (l₁ ++ prev :: l₂) hnoc
    have hp : matchesMove am op prev = true := by
      simp [matchesMove, hprev, hid]
    have hrepl := replaceLast_decomp (matchesMove am op) op l₁ l₂ prev hp hl₂
    simp [enqueue, hop, hnone, hrepl]
  · intro am l₁ l₂ prev op hop hprev hid hl₂ hnoc
    have hnone := fold_none_of_no_create (resolveA am op.id) op (l₁ ++ prev :: l₂) hnoc
    have hp : matchesToggle am op prev = true := by
      rcases hprev with h | h <;> simp [matchesToggle, h, hid]
    have hrepl := replaceLast_decomp (matchesToggle am op) op l₁ l₂ prev hp hl₂
    rcases hop with h | h <;> simp [enqueue, h, hnone, hrepl]
  · intro am q opA opB hA hB hid hnoupd hnoc
    have hnocA : ∀ e ∈ q, ¬(e.type = OpKind.create ∧ e.localId = resolveA am opA.id) := by
      intro e he
      rw [hid]
      exact hnoc e he
    have hnoupdA : ∀ e ∈ q, matchesUpdate am opA e = false := by
      intro e he
      have h := hnoupd e he
      simp only [matchesUpdate, hid] at *
      exact h
    have hnoneA := fold_none_of_no_create (resolveA am opA.id) opA q hnocA
    have hreplA := replaceLast_none_of_no_match (matchesUpdate am opA) opA q hnoupdA
    have hq1 : enqueue am q opA = q ++ [opA] := by
      simp [enqueue, hA, hnoneA, hreplA]
    have hnocB : ∀ e ∈ q ++ [opA], ¬(e.type = OpKind.create ∧ e.localId = resolveA am opB.id) := by
      intro e he
      rcases List.mem_append.mp he with h | h
      · exact hnoc e h
      · have : e = opA := by simpa using h
        rw [this]
        intro hcon
        rw [hA] at hcon
        exact absurd hcon.1 (by decide)
    have hnoneB := fold_none_of_no_create (resolveA am opB.id) opB (q ++ [opA]) hnocB
    have hpA : matchesUpdate am opB opA = true := by
      simp [matchesUpdate, hA, hid]
    have hreplB := replaceLast_decomp (matchesUpdate am opB) opB q [] opA hpA (by simp)
    have hq2 : enqueue am (q ++ [opA]) opB = q ++ [opB] := by
      have hreplB' : replaceLast (matchesUpdate am opB) opB (q ++ [opA]) = some (q ++ [opB]) := by
        simpa using hreplB
      simp [enqueue, hB, hnoneB, hreplB']
    rw [hq1, hq2]
    rw [List.filter_append]
    have hqnil : q.filter (matchesUpdate am opB) = [] := by
      apply List.filter_eq_nil_iff.mpr
      intro e he
      simp [hnoupd e he]
    have hpB : matchesUpdate am opB opB = true := by
      simp [matchesUpdate, hB]
    simp [hqnil, hpB]

/-- Witness for C2: all four parts at concrete inputs. -/
theorem claim_C2_witness :
    enqueue [] [mkUpdateOp "u1" "7" "A" none 1] (mkUpdateOp "u2" "7" "B" none 2) =
      [mkUpdateOp "u2" "7" "B" none 2] ∧
    enqueue [] [mkMoveOp "m1" "7" "p1" 1] (mkMoveOp "m2" "7" "p2" 2) =
      [mkMoveOp "m2" "7" "p2" 2] ∧
    enqueue [] [mkCloseOp "t1" "7" 1] (mkReopenOp "t2" "7" 2) =
      [mkReopenOp "t2" "7" 2] ∧
    (enqueue [] (enqueue [] [] (mkUpdateOp "u1" "7" "A" none 1))
        (mkUpdateOp "u2" "7" "B" none 2)).filter
      (matchesUpdate [] (mkUpdateOp "u2" "7" "B" none 2)) =
      [mkUpdateOp "u2" "7" "B" none 2] := by
  refine ⟨?_, ?_, ?_, ?_⟩
  · have h := claim_C2_coalescing.1 [] [] [] (mkUpdateOp "u1" "7" "A" none 1)
      (mkUpdateOp "u2" "7" "B" none 2) rfl rfl rfl (by simp) (by decide)
    simpa using h
  · have h := claim_C2_coalescing.2.1 [] [] [] (mkMoveOp "m1" "7" "p1" 1)
      (mkMoveOp "m2" "7" "p2" 2) rfl rfl rfl (by simp) (by decide)
    simpa using h
  · have h := claim_C2_coalescing.2.2.1 [] [] [] (mkCloseOp "t1" "7" 1)
      (mkReopenOp "t2" "7" 2) (Or.inr rfl) (Or.inl rfl) rfl (by simp) (by decide)
    simpa using h
  · exact claim_C2_coalescing.2.2.2 [] [] (mkUpdateOp "u1" "7" "A" none 1)
      (mkUpdateOp "u2" "7" "B" none 2) rfl rfl rfl (by simp) (by simp)

theorem moveLineShadow_shape (s : ServiceState) (a b : String) :
    ∃ sh, moveLineShadow s a b = { s with lineShadowById := sh } := by
  unfold moveLineShadow
  split
  · exact ⟨s.lineShadowById, rfl⟩
  · dsimp only
    split
    · exact ⟨s.lineShadowById, rfl⟩
    · exact ⟨_, rfl⟩

theorem moveLineShadow_tasksById (s : ServiceState) (a b : String) :
    (moveLineShadow s a b).tasksById = s.tasksById := by
  obtain ⟨sh, h⟩ := moveLineShadow_shape s a b
  rw [h]

theorem moveLineShadow_idAliasMap (s : ServiceState) (a b : String) :
    (moveLineShadow s a b).idAliasMap = s.idAliasMap := by
  obtain ⟨sh, h⟩ := moveLineShadow_shape s a b
  rw [h]

theorem moveLineShadow_filterResults (s : ServiceState) (a b : String) :
    (moveLineShadow s a b).filterResults = s.filterResults := by
  obtain ⟨sh, h⟩ := moveLineShadow_shape s a b
  rw [h]

theorem moveLineShadow_queue (s : ServiceState) (a b : String) :
    (moveLineShadow s a b).queue = s.queue := by
  obtain ⟨sh, h⟩ := moveLineShadow_shape s a b
  rw [h]

theorem applyTempIdEntry_parts (st : ServiceState) (T C : String) :
    (applyTempIdEntry st T C).idAliasMap = setA st.idAliasMap T C ∧
    (applyTempIdEntry st T C).filterResults =
      st.filterResults.map (fun kv => (kv.1, kv.2.map (fun x => if x = T then C else x))) ∧
    (applyTempIdEntry st T C).tasksById =
      (match lookupA st.tasksById T with
       | some existing =>
           (match lookupA st.tasksById C with
            | none => setA (delA st.tasksById T) C { existing with id := C }
            | some _ => st.tasksById)
       | none => st.tasksById) := by
  refine ⟨?_, ?_, ?_⟩ <;>
  · unfold applyTempIdEntry
    cases hT : lookupA st.tasksById T with
    | none =>
        simp [moveLineShadow_tasksById, moveLineShadow_idAliasMap,
          moveLineShadow_filterResults, hT]
    | some existing =>
        cases hC2 : lookupA st.tasksById C with
        | none =>
            simp [moveLineShadow_tasksById, moveLineShadow_idAliasMap,
              moveLineShadow_filterResults, hT, hC2]
        | some other =>
            simp [moveLineShadow_tasksById, moveLineShadow_idAliasMap,
              moveLineShadow_filterResults, hT, hC2]

/-- Claim C3 (amended): applying a `temp_id_mapping` entry `T → C` makes
    `resolveTaskId T` return `C` and rewrites every FilterResultCache entry
    that referenced `T` to reference `C`; the TaskRecord under `T` is
    relocated to `C` — and hence no record remains keyed by `T` — provided
    no record already occupies the canonical slot `C` (when one does, the
    relocation is skipped and the record stays under `T`). -/
theorem claim_C3_alias_flattening (st : ServiceState) (T C : String)
    (hC : lookupA st.tasksById C = none) :
    resolveTaskId (applySyncApiTempIdMapping st [(T, C)]) T = C ∧
    lookupA (applySyncApiTempIdMapping st [(T, C)]).tasksById T = none ∧
    (∀ r, lookupA st.tasksById T = some r →
      lookupA (applySyncApiTempIdMapping st [(T, C)]).tasksById C = some { r with id := C }) ∧
    (∀ f ids, lookupA st.filterResults f = some ids →
      lookupA (applySyncApiTempIdMapping st [(T, C)]).filterResults f =
        some (ids.map (fun x => if x = T then C else x))) := by
  have happ : applySyncApiTempIdMapping st [(T, C)] = applyTempIdEntry st T C := by
    simp [applySyncApiTempIdMapping]
  obtain ⟨hal, hfil, htasks⟩ := applyTempIdEntry_parts st T C
  refine ⟨?_, ?_, ?_, ?_⟩
  · rw [happ]
    simp [resolveTaskId, resolveA, hal, lookupA_setA_self]
  · rw [happ, htasks]
    cases hT : lookupA st.tasksById T with
    | none => simp [hT]
    | some existing =>
        have hTC : T ≠ C := by
          intro he
          rw [he, hC] at hT
          cases hT
        simp only [hC]
        rw [lookupA_setA_ne _ _ _ _ hTC, lookupA_delA_self]
  · intro r hr
    rw [happ, htasks, hr, hC]
    simp [lookupA_setA_self]
  · intro f ids hid
    rw [happ, hfil, lookupA_map_value, hid]
    rfl

/-- Witness for C3 at a concrete state with a record under the temporary id
    and a free canonical slot. -/
theorem claim_C3_witness :
    lookupA
      (applySyncApiTempIdMapping
        ⟨[("local-1", ⟨"local-1", "a", false, none, none, none, none, TaskSource.loc, 0, none⟩)],
         [], [("f", ["local-1", "5"])], [], []⟩ [("local-1", "999")]).tasksById "local-1" = none ∧
    lookupA
      (applySyncApiTempIdMapping
        ⟨[("local-1", ⟨"local-1", "a", false, none, none, none, none, TaskSource.loc, 0, none⟩)],
         [], [("f", ["local-1", "5"])], [], []⟩ [("local-1", "999")]).filterResults "f" =
      some ["999", "5"] := by
  constructor
  · exact (claim_C3_alias_flattening
      ⟨[("local-1", ⟨"local-1", "a", false, none, none, none, none, TaskSource.loc, 0, none⟩)],
       [], [("f", ["local-1", "5"])], [], []⟩ "local-1" "999" (by decide)).2.1
  · have h := (claim_C3_alias_flattening
      ⟨[("local-1", ⟨"local-1", "a", false, none, none, none, none, TaskSource.loc, 0, none⟩)],
       [], [("f", ["local-1", "5"])], [], []⟩ "local-1" "999" (by decide)).2.2.2
      "f" ["local-1", "5"] (by decide)
    simpa using h

/-- Counterexample for C3 as stated: when a record already exists under the
    canonical id, the record under the temporary id is not relocated and
    stays keyed by the temporary id. -/
theorem claim_C3_counterexample :
    lookupA
      (applySyncApiTempIdMapping
        ⟨[("local-1", ⟨"local-1", "a", false, none, none, none, none, TaskSource.loc, 0, none⟩),
          ("999", ⟨"999", "b", false, none, none, none, none, TaskSource.rem, 0, none⟩)],
         [], [], [], []⟩ [("local-1", "999")]).tasksById "local-1" ≠ none := by
  decide

/-- Claim C4 (amended): on first observation of an id with no LineShadow
    *and no cached TaskRecord* for its resolved id (and whose alias entry, if
    any, is not a self-alias), the scan enqueues nothing and seeds the shadow
    with the parsed signature.  When a cached record exists and disagrees
    with the parsed signature, the scan does enqueue operations (see the
    counterexample). -/
theorem claim_C4_shadow_baseline (st : ServiceState) (existingId : String) (cur : Shadow)
    (opIdU opIdM opIdT : String) (now : Nat)
    (hshadow : getLineShadow st existingId = none)
    (hcached : getCachedTask st existingId = none)
    (hself : lookupA st.idAliasMap existingId ≠ some existingId) :
    (scanLineStep st existingId cur opIdU opIdM opIdT now).queue = st.queue ∧
    getLineShadow (scanLineStep st existingId cur opIdU opIdM opIdT now) existingId = some cur := by
  have hstep : scanLineStep st existingId cur opIdU opIdM opIdT now =
      setLineShadow st existingId cur := by
    unfold scanLineStep
    simp [hcached, hshadow]
  constructor
  · rw [hstep]
    simp [setLineShadow]
  · rw [hstep]
    unfold setLineShadow getLineShadow resolveTaskId
    dsimp only
    by_cases hg : strStartsWith existingId "local-" = true ∧
        (lookupA st.idAliasMap existingId).isSome = true
    · rw [if_pos hg]
      obtain ⟨y, hy⟩ := Option.isSome_iff_exists.mp hg.2
      have hyne : y ≠ existingId := by
        intro he
        rw [he] at hy
        exact hself hy
      have hcanon : resolveA st.idAliasMap existingId = y := by
        simp [resolveA, hy]
      rw [hcanon, lookupA_delA_ne _ _ _ hyne, lookupA_setA_self]
    · rw [if_neg hg]
      rw [lookupA_setA_self]

/-- Witness for C4 at the empty state. -/
theorem claim_C4_witness :
    (scanLineStep ⟨[], [], [], [], []⟩ "7" ⟨"x", false, none, none⟩ "u" "m" "t" 5).queue = [] ∧
    getLineShadow (scanLineStep ⟨[], [], [], [], []⟩ "7" ⟨"x", false, none, none⟩ "u" "m" "t" 5)
      "7" = some ⟨"x", false, none, none⟩ :=
  claim_C4_shadow_baseline ⟨[], [], [], [], []⟩ "7" ⟨"x", false, none, none⟩ "u" "m" "t" 5
    (by decide) (by decide) (by decide)

/-- Counterexample for C4 as stated: with no LineShadow but a cached record
    whose signature differs from the parsed one, the scan does enqueue an
    `update` (the cached signature is used as the baseline), so "no LineShadow
    exists" alone does not guarantee that no operation is enqueued. -/
theorem claim_C4_counterexample :
    (scanLineStep
      ⟨[("7", ⟨"7", "a", false, none, none, none, none, TaskSource.rem, 0, none⟩)],
       [], [], [], []⟩ "7" ⟨"b", false, none, none⟩ "u" "m" "t" 5).queue ≠
    (⟨[("7", ⟨"7", "a", false, none, none, none, none, TaskSource.rem, 0, none⟩)],
       [], [], [], []⟩ : ServiceState).queue := by
  decide

/-- Claim C5 (amended): during `syncDown`, a line whose (already-canonical) id
    has a pending queued operation, or whose stored LineShadow differs from
    the line's live signature while the cached record is not a remote
    tombstone, is left untouched and the state (in particular the shadow) is
    unchanged — the remote value is not written back.  A stale temporary id
    is still rewritten to its canonical form, and a remotely-deleted task's
    markup is still removed when no operation is pending (see the
    counterexample). -/
theorem claim_C5_conflict_suppression (st : ServiceState) (rawId : String)
    (statusChar : Char) (localContent : String) (localDueDate localProjectId : Option String)
    (hres : resolveTaskId st rawId = rawId)
    (hmain : hasPendingOpsForId st rawId = true ∨
      ((∃ sh, getLineShadow st rawId = some sh ∧
          sigEquals (some sh)
            (some ⟨localContent, statusChar != ' ', localProjectId, localDueDate⟩) = false) ∧
       (∀ t, getCachedTask st rawId = some t → t.isDeleted ≠ some true))) :
    syncDownLine st rawId statusChar localContent localDueDate localProjectId =
      (LineOutcome.untouched, st) := by
  unfold syncDownLine
  cases hc : getCachedTask st rawId with
  | none => simp [hres, hc]
  | some t =>
      cases hpend : hasPendingOpsForId st rawId with
      | true => simp [hres, hc, hpend]
      | false =>
          rcases hmain with hp | ⟨⟨sh, hsh, hne⟩, hdel⟩
          · rw [hpend] at hp
            cases hp
          · have hdel' := hdel t hc
            simp [hres, hc, hpend, hdel', hsh, hne]

/-- Witness for C5: a pending `close` for the id suppresses the remote
    write-back even though the cached record differs from the line. -/
theorem claim_C5_witness :
    syncDownLine
      ⟨[("7", ⟨"7", "remote content", true, none, none, none, some false, TaskSource.rem, 0, none⟩)],
       [], [], [mkCloseOp "t1" "7" 1], []⟩ "7" ' ' "local content" none none =
    (LineOutcome.untouched,
     ⟨[("7", ⟨"7", "remote content", true, none, none, none, some false, TaskSource.rem, 0, none⟩)],
      [], [], [mkCloseOp "t1" "7" 1], []⟩) :=
  claim_C5_conflict_suppression
    ⟨[("7", ⟨"7", "remote content", true, none, none, none, some false, TaskSource.rem, 0, none⟩)],
     [], [], [mkCloseOp "t1" "7" 1], []⟩ "7" ' ' "local content" none none
    (by decide) (Or.inl (by decide))

/-- Counterexample for C5 as stated: a remotely-deleted cached task whose
    shadow disagrees with the live line is *not* left untouched — its task
    markup is removed from the line even though an unsynced local edit is
    pending in the shadow sense. -/
theorem claim_C5_counterexample :
    (syncDownLine
      ⟨[("7", ⟨"7", "a", false, none, none, none, some true, TaskSource.rem, 0, none⟩)],
       [], [], [], [("7", ⟨"z", false, none, none⟩)]⟩ "7" ' ' "b" none none).1 ≠
    LineOutcome.untouched := by
  decide

theorem backoffDelay_mono (a b : Nat) (h : a ≤ b) : backoffDelay a ≤ backoffDelay b := by
  unfold backoffDelay
  simp only [Nat.zero_max]
  have hpow : 2000 * 2 ^ (a - 1) ≤ 2000 * 2 ^ (b - 1) :=
    Nat.mul_le_mul_left _ (Nat.pow_le_pow_right (by omega) (by omega))
  omega

theorem backoffDelay_le_cap (a : Nat) : backoffDelay a ≤ 30 * 60 * 1000 := by
  unfold backoffDelay
  exact Nat.min_le_left _ _

/-- Claim C6 (amended): a failed command increments `attempts`, records the
    error in `lastError` and sets
    `nextRetryAt = now + min(30min, 2s * 2^(attempts-1))` (with `attempts`
    the incremented value); across consecutive failures at non-decreasing
    times `nextRetryAt` is non-decreasing, and the scheduled *delay*
    `nextRetryAt - now` is capped at 30 minutes.  The distance
    `nextRetryAt - queuedAt` is not capped (see the counterexample). -/
theorem claim_C6_backoff (op : SyncOperation) (err : String) (now : Nat) :
    (applyCommandFailure op err now).attempts = op.attempts + 1 ∧
    (applyCommandFailure op err now).lastError = some err ∧
    (applyCommandFailure op err now).nextRetryAt =
      some (now + min (30 * 60 * 1000) (2000 * 2 ^ (op.attempts + 1 - 1))) ∧
    (∀ t, (applyCommandFailure op err now).nextRetryAt = some t →
      t - now ≤ 30 * 60 * 1000) ∧
    (∀ err2 now2, now ≤ now2 →
      (applyCommandFailure op err now).nextRetryAt.getD 0 ≤
        (applyCommandFailure (applyCommandFailure op err now) err2 now2).nextRetryAt.getD 0) ∧
    (∀ (am : List (String × String)) (statusOf : String → Option CmdStatus)
       (items : List (String × RespItem)) (msg : String),
       statusOf op.opId = some (CmdStatus.failed msg) →
       processFlushQueue am statusOf items now [op] = [applyCommandFailure op msg now]) := by
  refine ⟨rfl, rfl, ?_, ?_, ?_, ?_⟩
  · simp [applyCommandFailure, backoffDelay, Nat.zero_max]
  · intro t ht
    simp only [applyCommandFailure] at ht
    cases ht
    have := backoffDelay_le_cap (op.attempts + 1)
    omega
  · intro err2 now2 hle
    simp only [applyCommandFailure, Option.getD_some]
    have hmono := backoffDelay_mono (op.attempts + 1) (op.attempts + 1 + 1) (by omega)
    omega
  · intro am statusOf items msg hstatus
    simp [processFlushQueue, hstatus]

/-- Witness for C6 at a concrete operation and failure times. -/
theorem claim_C6_witness :
    (applyCommandFailure (mkCloseOp "u1" "7" 0) "boom" 1000).nextRetryAt = some 3000 ∧
    (applyCommandFailure (mkCloseOp "u1" "7" 0) "boom" 1000).nextRetryAt.getD 0 ≤
      (applyCommandFailure (applyCommandFailure (mkCloseOp "u1" "7" 0) "boom" 1000)
        "boom2" 5000).nextRetryAt.getD 0 := by
  constructor
  · have h := (claim_C6_backoff (mkCloseOp "u1" "7" 0) "boom" 1000).2.2.1
    simpa using h
  · exact (claim_C6_backoff (mkCloseOp "u1" "7" 0) "boom" 1000).2.2.2.2.1 "boom2" 5000
      (by omega)

/-- Counterexample for C6 as stated: `nextRetryAt - queuedAt` is not capped at
    30 minutes — a single failure processed more than 30 minutes after the
    operation was queued already exceeds the supposed cap. -/
theorem claim_C6_counterexample :
    ¬ ((applyCommandFailure (mkCloseOp "u1" "7" 0) "boom" 1800001).nextRetryAt.getD 0 -
        (mkCloseOp "u1" "7" 0).queuedAt ≤ 30 * 60 * 1000) := by
  decide

/-- Transcription of claim C7's per-operation fate, written from the spec's
    words: a command reported successful is removed, except a close/reopen
    whose completion state is not confirmed by the response's item list,
    which stays queued with `attempts` incremented and a `nextRetryAt`
    backoff; a command reported failed stays queued with the failure
    mutation; an operation with no reported status stays queued unchanged. -/
def flushOutcomeSpec (am : List (String × String))
    (statusOf : String → Option CmdStatus) (items : List (String × RespItem))
    (now : Nat) (op : SyncOperation) : Option SyncOperation :=
  match statusOf op.opId with
  | none => some op
  | some CmdStatus.ok =>
      if op.type = OpKind.close ∨ op.type = OpKind.reopen then
        if toggleConfirmed items (resolveA am op.id) op then none
        else some (notConfirmedFailure op (resolveA am op.id) now)
      else none
  | some (CmdStatus.failed msg) => some (applyCommandFailure op msg now)

/-- Claim C7: the flush response loop keeps exactly the operations described
    by `flushOutcomeSpec`, in order — successful commands are removed, a
    successful close/reopen is removed only when the response's item list
    confirms the matching completion state (otherwise it stays with
    `attempts` incremented and a backoff scheduled), failed commands stay
    with the failure mutation, and operations with no reported status stay
    unchanged. -/
theorem claim_C7_flush_fates (am : List (String × String))
    (statusOf : String → Option CmdStatus) (items : List (String × RespItem))
    (now : Nat) (q : List SyncOperation) :
    processFlushQueue am statusOf items now q =
      q.filterMap (flushOutcomeSpec am statusOf items now) := by
  induction q with
  | nil => rfl
  | cons op rest ih =>
      cases hs : statusOf op.opId with
      | none => simp [processFlushQueue, flushOutcomeSpec, hs, ih]
      | some s0 =>
          cases s0 with
          | ok =>
              by_cases htog : op.type = OpKind.close ∨ op.type = OpKind.reopen
              · by_cases hconf : toggleConfirmed items (resolveA am op.id) op = true
                · simp [processFlushQueue, flushOutcomeSpec, hs, htog, hconf, ih]
                · simp [processFlushQueue, flushOutcomeSpec, hs, htog, hconf, ih]
              · simp [processFlushQueue, flushOutcomeSpec, hs, htog, ih]
          | failed msg => simp [processFlushQueue, flushOutcomeSpec, hs, ih]

/-- Predicate: the operation is an `update` for resolved target `r`. -/
def isUpdateFor (am : List (String × String)) (r : String) (op : SyncOperation) : Bool :=
  decide (op.type = OpKind.update ∧ resolveA am op.id = r)

/-- Predicate: the operation is a `move` for resolved target `r`. -/
def isMoveFor (am : List (String × String)) (r : String) (op : SyncOperation) : Bool :=
  decide (op.type = OpKind.move ∧ resolveA am op.id = r)

/-- Predicate: the operation is a completion-toggle (`close`/`reopen`) for resolved target `r`. -/
def isToggleFor (am : List (String × String)) (r : String) (op : SyncOperation) : Bool :=
  decide ((op.type = OpKind.close ∨ op.type = OpKind.reopen) ∧ resolveA am op.id = r)

/-- The queue invariant of claim C8: per resolved target, at most one queued
    `update`, at most one queued `move`, and at most one queued
    completion-toggle. -/
def queueKindInvariant (am : List (String × String)) (q : List SyncOperation) : Prop :=
  ∀ r : String,
    q.countP (isUpdateFor am r) ≤ 1 ∧ q.countP (isMoveFor am r) ≤ 1 ∧
    q.countP (isToggleFor am r) ≤ 1

theorem isUpdateFor_foldMutate (am : List (String × String)) (r : String)
    (op e : SyncOperation) : isUpdateFor am r (foldMutate op e) = isUpdateFor am r e := by
  unfold isUpdateFor
  rw [decide_eq_decide, foldMutate_type, foldMutate_id]

theorem isMoveFor_foldMutate (am : List (String × String)) (r : String)
    (op e : SyncOperation) : isMoveFor am r (foldMutate op e) = isMoveFor am r e := by
  unfold isMoveFor
  rw [decide_eq_decide, foldMutate_type, foldMutate_id]

theorem isToggleFor_foldMutate (am : List (String × String)) (r : String)
    (op e : SyncOperation) : isToggleFor am r (foldMutate op e) = isToggleFor am r e := by
  unfold isToggleFor
  rw [decide_eq_decide, foldMutate_type, foldMutate_id]

theorem fold_countP (c : String) (op : SyncOperation) :
    ∀ q q' : List SyncOperation, foldIntoPendingCreate c op q = some q' →
      ∀ p : SyncOperation → Bool, (∀ e, p (foldMutate op e) = p e) →
      q'.countP p = q.countP p := by
  intro q
  induction q with
  | nil => intro q' h; simp [foldIntoPendingCreate] at h
  | cons e rest ih =>
      intro q' h p hp
      unfold foldIntoPendingCreate at h
      by_cases hc : e.type = OpKind.create ∧ e.localId = c
      · rw [if_pos hc] at h
        cases h
        simp [List.countP_cons, hp e]
      · rw [if_neg hc] at h
        cases hrec : foldIntoPendingCreate c op rest with
        | some rest' =>
            rw [hrec] at h
            cases h
            simp [List.countP_cons, ih rest' hrec p hp]
        | none => rw [hrec] at h; cases h

theorem replace_countP (p0 : SyncOperation → Bool) (x : SyncOperation)
    (l l' : List SyncOperation) (h : replaceLast p0 x l = some l')
    (pr : SyncOperation → Bool) (hsame : ∀ e, p0 e = true → pr x = pr e) :
    l'.countP pr = l.countP pr := by
  obtain ⟨l₁, e, l₂, hl, hpe, _, hl'⟩ := replaceLast_shape p0 x l l' h
  subst hl hl'
  simp [List.countP_append, List.countP_cons, hsame e hpe]

/-- Case analysis on the control flow of `enqueue`. -/
theorem enqueue_cases (am : List (String × String)) (q : List SyncOperation)
    (op : SyncOperation) :
    (∃ q', foldIntoPendingCreate (resolveA am op.id) op q = some q' ∧
       enqueue am q op = q') ∨
    (∃ q', op.type = OpKind.update ∧ replaceLast (matchesUpdate am op) op q = some q' ∧
       enqueue am q op = q') ∨
    (∃ q', op.type = OpKind.move ∧ replaceLast (matchesMove am op) op q = some q' ∧
       enqueue am q op = q') ∨
    (∃ q', (op.type = OpKind.close ∨ op.type = OpKind.reopen) ∧
       replaceLast (matchesToggle am op) op q = some q' ∧ enqueue am q op = q') ∨
    (enqueue am q op = q ++ [op] ∧
       (op.type = OpKind.update → replaceLast (matchesUpdate am op) op q = none) ∧
       (op.type = OpKind.move → replaceLast (matchesMove am op) op q = none) ∧
       ((op.type = OpKind.close ∨ op.type = OpKind.reopen) →
         replaceLast (matchesToggle am op) op q = none)) := by
  cases htype : op.type with
  | create =>
      have henq : enqueue am q op = q ++ [op] := by simp [enqueue, htype]
      refine Or.inr (Or.inr (Or.inr (Or.inr ⟨henq, ?_, ?_, ?_⟩)))
      · intro hm; exact absurd hm (by decide)
      · intro hm; exact absurd hm (by decide)
      · intro hm; rcases hm with hm | hm <;> exact absurd hm (by decide)
  | update =>
      by_cases hstart : strStartsWith (resolveA am op.id) "local-" = true
      · cases hf : foldIntoPendingCreate (resolveA am op.id) op q with
        | some q' =>
            have henq : enqueue am q op = q' := by simp [enqueue, htype, hstart, hf]
            exact Or.inl ⟨q', rfl, henq⟩
        | none =>
            cases hr : replaceLast (matchesUpdate am op) op q with
            | some q' =>
                have henq : enqueue am q op = q' := by simp [enqueue, htype, hstart, hf, hr]
                exact Or.inr (Or.inl ⟨q', rfl, rfl, henq⟩)
            | none =>
                have henq : enqueue am q op = q ++ [op] := by
                  simp [enqueue, htype, hstart, hf, hr]
                refine Or.inr (Or.inr (Or.inr (Or.inr ⟨henq, fun _ => rfl, ?_, ?_⟩)))
                · intro hm; exact absurd hm (by decide)
                · intro hm; rcases hm with hm | hm <;> exact absurd hm (by decide)
      · cases hr : replaceLast (matchesUpdate am op) op q with
        | some q' =>
            have henq : enqueue am q op = q' := by simp [enqueue, htype, hstart, hr]
            exact Or.inr (Or.inl ⟨q', rfl, rfl, henq⟩)
        | none =>
            have henq : enqueue am q op = q ++ [op] := by simp [enqueue, htype, hstart, hr]
            refine Or.inr (Or.inr (Or.inr (Or.inr ⟨henq, fun _ => rfl, ?_, ?_⟩)))
            · intro hm; exact absurd hm (by decide)
            · intro hm; rcases hm with hm | hm <;> exact absurd hm (by decide)
  | move =>
      by_cases hstart : strStartsWith (resolveA am op.id) "local-" = true
      · cases hf : foldIntoPendingCreate (resolveA am op.id) op q with
        | some q' =>
            have henq : enqueue am q op = q' := by simp [enqueue, htype, hstart, hf]
            exact Or.inl ⟨q', rfl, henq⟩
        | none =>
            cases hr : replaceLast (matchesMove am op) op q with
            | some q' =>
                have henq : enqueue am q op = q' := by simp [enqueue, htype, hstart, hf, hr]
                exact Or.inr (Or.inr (Or.inl ⟨q', rfl, rfl, henq⟩))
            | none =>
                have henq : enqueue am q op = q ++ [op] := by
                  simp [enqueue, htype, hstart, hf, hr]
                refine Or.inr (Or.inr (Or.inr (Or.inr ⟨henq, ?_, fun _ => rfl, ?_⟩)))
                · intro hm; exact absurd hm (by decide)
                · intro hm; rcases hm with hm | hm <;> exact absurd hm (by decide)
      · cases hr : replaceLast (matchesMove am op) op q with
        | some q' =>
            have henq : enqueue am q op = q' := by simp [enqueue, htype, hstart, hr]
            exact Or.inr (Or.inr (Or.inl ⟨q', rfl, rfl, henq⟩))
        | none =>
            have henq : enqueue am q op = q ++ [op] := by simp [enqueue, htype, hstart, hr]
            refine Or.inr (Or.inr (Or.inr (Or.inr ⟨henq, ?_, fun _ => rfl, ?_⟩)))
            · intro hm; exact absurd hm (by decide)
            · intro hm; rcases hm with hm | hm <;> exact absurd hm (by decide)
  | close =>
      by_cases hstart : strStartsWith (resolveA am op.id) "local-" = true
      · cases hf : foldIntoPendingCreate (resolveA am op.id) op q with
        | some q' =>
            have henq : enqueue am q op = q' := by simp [enqueue, htype, hstart, hf]
            exact Or.inl ⟨q', rfl, henq⟩
        | none =>
            cases hr : replaceLast (matchesToggle am op) op q with
            | some q' =>
                have henq : enqueue am q op = q' := by simp [enqueue, htype, hstart, hf, hr]
                exact Or.inr (Or.inr (Or.inr (Or.inl ⟨q', Or.inl rfl, rfl, henq⟩)))
            | none =>
                have henq : enqueue am q op = q ++ [op] := by
                  simp [enqueue, htype, hstart, hf, hr]
                refine Or.inr (Or.inr (Or.inr (Or.inr ⟨henq, ?_, ?_, fun _ => rfl⟩)))
                · intro hm; exact absurd hm (by decide)
                · intro hm; exact absurd hm (by decide)
      · cases hr : replaceLast (matchesToggle am op) op q with
        | some q' =>
            have henq : enqueue am q op = q' := by simp [enqueue, htype, hstart, hr]
            exact Or.inr (Or.inr (Or.inr (Or.inl ⟨q', Or.inl rfl, rfl, henq⟩)))
        | none =>
            have henq : enqueue am q op = q ++ [op] := by simp [enqueue, htype, hstart, hr]
            refine Or.inr (Or.inr (Or.inr (Or.inr ⟨henq, ?_, ?_, fun _ => rfl⟩)))
            · intro hm; exact absurd hm (by decide)
            · intro hm; exact absurd hm (by decide)
  | reopen =>
      by_cases hstart : strStartsWith (resolveA am op.id) "local-" = true
      · cases hf : foldIntoPendingCreate (resolveA am op.id) op q with
        | some q' =>
            have henq : enqueue am q op = q' := by simp [enqueue, htype, hstart, hf]
            exact Or.inl ⟨q', rfl, henq⟩
        | none =>
            cases hr : replaceLast (matchesToggle am op) op q with
            | some q' =>
                have henq : enqueue am q op = q' := by simp [enqueue, htype, hstart, hf, hr]
                exact Or.inr (Or.inr (Or.inr (Or.inl ⟨q', Or.inr rfl, rfl, henq⟩)))
            | none =>
                have henq : enqueue am q op = q ++ [op] := by
                  simp [enqueue, htype, hstart, hf, hr]
                refine Or.inr (Or.inr (Or.inr (Or.inr ⟨henq, ?_, ?_, fun _ => rfl⟩)))
                · intro hm; exact absurd hm (by decide)
                · intro hm; exact absurd hm (by decide)
      · cases hr : replaceLast (matchesToggle am op) op q with
        | some q' =>
            have henq : enqueue am q op = q' := by simp [enqueue, htype, hstart, hr]
            exact Or.inr (Or.inr (Or.inr (Or.inl ⟨q', Or.inr rfl, rfl, henq⟩)))
        | none =>
            have henq : enqueue am q op = q ++ [op] := by simp [enqueue, htype, hstart, hr]
            refine Or.inr (Or.inr (Or.inr (Or.inr ⟨henq, ?_, ?_, fun _ => rfl⟩)))
            · intro hm; exact absurd hm (by decide)
            · intro hm; exact absurd hm (by decide)

theorem countP_noncreate_le (am : List (String × String)) (r : String) :
    ∀ q : List SyncOperation,
      q.countP (fun e => decide (e.type ≠ OpKind.create ∧ resolveA am e.id = r)) ≤
        q.countP (isUpdateFor am r) + q.countP (isMoveFor am r) +
          q.countP (isToggleFor am r) := by
  intro q
  induction q with
  | nil => simp
  | cons e rest ih =>
      simp only [List.countP_cons]
      have hel : (if decide (e.type ≠ OpKind.create ∧ resolveA am e.id = r) = true then 1 else 0) ≤
          (if isUpdateFor am r e = true then 1 else 0) +
          (if isMoveFor am r e = true then 1 else 0) +
          (if isToggleFor am r e = true then 1 else 0) := by
        by_cases hr2 : resolveA am e.id = r <;>
          cases he : e.type <;>
            simp [isUpdateFor, isMoveFor, isToggleFor, he, hr2]
      omega

/-- Claim C8: every `enqueue` preserves the invariant that the queue holds at
    most one `update`, at most one `move`, and at most one completion-toggle
    per resolved target id; hence each resolved target contributes at most 3
    non-`create` operations to the queue length. -/
theorem claim_C8_queue_invariant (am : List (String × String)) (q : List SyncOperation)
    (op : SyncOperation) (hinv : queueKindInvariant am q) :
    queueKindInvariant am (enqueue am q op) ∧
    (∀ r : String, (enqueue am q op).countP
        (fun e => decide (e.type ≠ OpKind.create ∧ resolveA am e.id = r)) ≤ 3) := by
  have hpres : queueKindInvariant am (enqueue am q op) := by
    rcases enqueue_cases am q op with
      ⟨q', hf, henq⟩ | ⟨q', htype, hr0, henq⟩ | ⟨q', htype, hr0, henq⟩ |
        ⟨q', htype, hr0, henq⟩ | ⟨henq, hnu, hnm, hnt⟩
    · intro r
      rw [henq,
        fold_countP _ _ q q' hf _ (isUpdateFor_foldMutate am r op),
        fold_countP _ _ q q' hf _ (isMoveFor_foldMutate am r op),
        fold_countP _ _ q q' hf _ (isToggleFor_foldMutate am r op)]
      exact hinv r
    · intro r
      rw [henq]
      have hsU : ∀ e, matchesUpdate am op e = true → isUpdateFor am r op = isUpdateFor am r e := by
        intro e he
        simp only [matchesUpdate] at he
        have he' := of_decide_eq_true he
        simp [isUpdateFor, htype, he'.1, he'.2]
      have hsM : ∀ e, matchesUpdate am op e = true → isMoveFor am r op = isMoveFor am r e := by
        intro e he
        simp only [matchesUpdate] at he
        have he' := of_decide_eq_true he
        simp [isMoveFor, htype, he'.1]
      have hsT : ∀ e, matchesUpdate am op e = true → isToggleFor am r op = isToggleFor am r e := by
        intro e he
        simp only [matchesUpdate] at he
        have he' := of_decide_eq_true he
        simp [isToggleFor, htype, he'.1]
      rw [replace_countP _ _ _ _ hr0 _ hsU, replace_countP _ _ _ _ hr0 _ hsM,
        replace_countP _ _ _ _ hr0 _ hsT]
      exact hinv r
    · intro r
      rw [henq]
      have hsU : ∀ e, matchesMove am op e = true → isUpdateFor am r op = isUpdateFor am r e := by
        intro e he
        simp only [matchesMove] at he
        have he' := of_decide_eq_true he
        simp [isUpdateFor, htype, he'.1]
      have hsM : ∀ e, matchesMove am op e = true → isMoveFor am r op = isMoveFor am r e := by
        intro e he
        simp only [matchesMove] at he
        have he' := of_decide_eq_true he
        simp [isMoveFor, htype, he'.1, he'.2]
      have hsT : ∀ e, matchesMove am op e = true → isToggleFor am r op = isToggleFor am r e := by
        intro e he
        simp only [matchesMove] at he
        have he' := of_decide_eq_true he
        simp [isToggleFor, htype, he'.1]
      rw [replace_countP _ _ _ _ hr0 _ hsU, replace_countP _ _ _ _ hr0 _ hsM,
        replace_countP _ _ _ _ hr0 _ hsT]
      exact hinv r
    · intro r
      rw [henq]
      have hsU : ∀ e, matchesToggle am op e = true → isUpdateFor am r op = isUpdateFor am r e := by
        intro e he
        simp only [matchesToggle] at he
        have he' := of_decide_eq_true he
        have h1 : isUpdateFor am r op = false := by
          rcases htype with h | h <;> simp [isUpdateFor, h]
        have h2 : isUpdateFor am r e = false := by
          rcases he'.1 with h | h <;> simp [isUpdateFor, h]
        rw [h1, h2]
      have hsM : ∀ e, matchesToggle am op e = true → isMoveFor am r op = isMoveFor am r e := by
        intro e he
        simp only [matchesToggle] at he
        have he' := of_decide_eq_true he
        have h1 : isMoveFor am r op = false := by
          rcases htype with h | h <;> simp [isMoveFor, h]
        have h2 : isMoveFor am r e = false := by
          rcases he'.1 with h | h <;> simp [isMoveFor, h]
        rw [h1, h2]
      have hsT : ∀ e, matchesToggle am op e = true → isToggleFor am r op = isToggleFor am r e := by
        intro e he
        simp only [matchesToggle] at he
        have he' := of_decide_eq_true he
        have h1 : isToggleFor am r op = decide (resolveA am op.id = r) := by
          rcases htype with h | h <;> simp [isToggleFor, h]
        have h2 : isToggleFor am r e = decide (resolveA am op.id = r) := by
          rcases he'.1 with h | h <;> simp [isToggleFor, h, he'.2]
        rw [h1, h2]
      rw [replace_countP _ _ _ _ hr0 _ hsU, replace_countP _ _ _ _ hr0 _ hsM,
        replace_countP _ _ _ _ hr0 _ hsT]
      exact hinv r
    · intro r
      obtain ⟨hu1, hm1, ht1⟩ := hinv r
      rw [henq, List.countP_append, List.countP_append, List.countP_append]
      cases htype : op.type with
      | create =>
          have h1 : isUpdateFor am r op = false := by simp [isUpdateFor, htype]
          have h2 : isMoveFor am r op = false := by simp [isMoveFor, htype]
          have h3 : isToggleFor am r op = false := by simp [isToggleFor, htype]
          simp [List.countP_cons, List.countP_nil, h1, h2, h3]
          omega
      | update =>
          have h2 : isMoveFor am r op = false := by simp [isMoveFor, htype]
          have h3 : isToggleFor am r op = false := by simp [isToggleFor, htype]
          have hz : isUpdateFor am r op = true → q.countP (isUpdateFor am r) = 0 := by
            intro hopr
            have hforall := replaceLast_none_forall _ _ _ (hnu htype)
            apply List.countP_eq_zero.mpr
            intro e he
            intro hcon
            have he' := of_decide_eq_true hcon
            have hop' := of_decide_eq_true hopr
            have : matchesUpdate am op e = true := by
              simp [matchesUpdate, he'.1, he'.2, hop'.2]
            rw [hforall e he] at this
            cases this
          by_cases hopr : isUpdateFor am r op = true
          · have hzero := hz hopr
            simp [List.countP_cons, List.countP_nil, h2, h3, hopr, hzero]
            omega
          · have hopr' : isUpdateFor am r op = false := by
              cases hb : isUpdateFor am r op with
              | true => exact absurd hb hopr
              | false => rfl
            simp [List.countP_cons, List.countP_nil, h2, h3, hopr']
            omega
      | move =>
          have h1 : isUpdateFor am r op = false := by simp [isUpdateFor, htype]
          have h3 : isToggleFor am r op = false := by simp [isToggleFor, htype]
          have hz : isMoveFor am r op = true → q.countP (isMoveFor am r) = 0 := by
            intro hopr
            have hforall := replaceLast_none_forall _ _ _ (hnm htype)
            apply List.countP_eq_zero.mpr
            intro e he
            intro hcon
            have he' := of_decide_eq_true hcon
            have hop' := of_decide_eq_true hopr
            have : matchesMove am op e = true := by
              simp [matchesMove, he'.1, he'.2, hop'.2]
            rw [hforall e he] at this
            cases this
          by_cases hopr : isMoveFor am r op = true
          · have hzero := hz hopr
            simp [List.countP_cons, List.countP_nil, h1, h3, hopr, hzero]
            omega
          · have hopr' : isMoveFor am r op = false := by
              cases hb : isMoveFor am r op with
              | true => exact absurd hb hopr
              | false => rfl
            simp [List.countP_cons, List.countP_nil, h1, h3, hopr']
            omega
      | close =>
          have h1 : isUpdateFor am r op = false := by simp [isUpdateFor, htype]
          have h2 : isMoveFor am r op = false := by simp [isMoveFor, htype]
          have hz : isToggleFor am r op = true → q.countP (isToggleFor am r) = 0 := by
            intro hopr
            have hforall := replaceLast_none_forall _ _ _ (hnt (Or.inl htype))
            apply List.countP_eq_zero.mpr
            intro e he
            intro hcon
            have he' := of_decide_eq_true hcon
            have hop' := of_decide_eq_true hopr
            have : matchesToggle am op e = true := by
              simp [matchesToggle, he'.1, he'.2, hop'.2]
            rw [hforall e he] at this
            cases this
          by_cases hopr : isToggleFor am r op = true
          · have hzero := hz hopr
            simp [List.countP_cons, List.countP_nil, h1, h2, hopr, hzero]
            omega
          · have hopr' : isToggleFor am r op = false := by
              cases hb : isToggleFor am r op with
              | true => exact absurd hb hopr
              | false => rfl
            simp [List.countP_cons, List.countP_nil, h1, h2, hopr']
            omega
      | reopen =>
          have h1 : isUpdateFor am r op = false := by simp [isUpdateFor, htype]
          have h2 : isMoveFor am r op = false := by simp [isMoveFor, htype]
          have hz : isToggleFor am r op = true → q.countP (isToggleFor am r) = 0 := by
            intro hopr
            have hforall := replaceLast_none_forall _ _ _ (hnt (Or.inr htype))
            apply List.countP_eq_zero.mpr
            intro e he
            intro hcon
            have he' := of_decide_eq_true hcon
            have hop' := of_decide_eq_true hopr
            have : matchesToggle am op e = true := by
              simp [matchesToggle, he'.1, he'.2, hop'.2]
            rw [hforall e he] at this
            cases this
          by_cases hopr : isToggleFor am r op = true
          · have hzero := hz hopr
            simp [List.countP_cons, List.countP_nil, h1, h2, hopr, hzero]
            omega
          · have hopr' : isToggleFor am r op = false := by
              cases hb : isToggleFor am r op with
              | true => exact absurd hb hopr
              | false => rfl
            simp [List.countP_cons, List.countP_nil, h1, h2, hopr']
            omega
  refine ⟨hpres, ?_⟩
  intro r
  obtain ⟨hu, hm, ht⟩ := hpres r
  have hle := countP_noncreate_le am r (enqueue am q op)
  omega

/-- Witness for C8 at the empty queue. -/
theorem claim_C8_witness :
    queueKindInvariant [] [] ∧
    (queueKindInvariant [] (enqueue [] [] (mkUpdateOp "u1" "7" "a" none 2)) ∧
     (∀ r : String, (enqueue [] [] (mkUpdateOp "u1" "7" "a" none 2)).countP
        (fun e => decide (e.type ≠ OpKind.create ∧ resolveA [] e.id = r)) ≤ 3)) := by
  have hinv : queueKindInvariant [] [] := by
    intro r
    simp [List.countP_nil]
  exact ⟨hinv, claim_C8_queue_invariant [] [] (mkUpdateOp "u1" "7" "a" none 2) hinv⟩

theorem strFieldOpt_shape (o : Option JVal) :
    strFieldOpt o = none ∨ ∃ s, strFieldOpt o = some (JVal.str s) := by
  unfold strFieldOpt
  cases o with
  | none => exact Or.inl rfl
  | some v => cases v <;> first | exact Or.inl rfl | exact Or.inr ⟨_, rfl⟩

theorem numFieldOpt_shape (o : Option JVal) :
    numFieldOpt o = none ∨ ∃ n, numFieldOpt o = some (JVal.num n) := by
  unfold numFieldOpt
  cases o with
  | none => exact Or.inl rfl
  | some v => cases v <;> first | exact Or.inl rfl | exact Or.inr ⟨_, rfl⟩

theorem boolFieldOpt_shape (o : Option JVal) :
    boolFieldOpt o = none ∨ ∃ b, boolFieldOpt o = some (JVal.bool b) := by
  unfold boolFieldOpt
  cases o with
  | none => exact Or.inl rfl
  | some v => cases v <;> first | exact Or.inl rfl | exact Or.inr ⟨_, rfl⟩

theorem migrateQueueEntry_wellFormed (fresh : Nat → String) (now : Int) (i : Nat)
    (op v : JVal) (h : migrateQueueEntry fresh now i op = some v) :
    wellFormedOpJ v = true := by
  unfold migrateQueueEntry at h
  cases op with
  | null => cases h
  | bool b => cases h
  | num n => cases h
  | str s => cases h
  | arr xs => cases h
  | obj kvs =>
      dsimp only at h
      cases hty : lookupA kvs "type" with
      | none => rw [hty] at h; cases h
      | some tyv =>
          rw [hty] at h
          cases tyv with
          | null => cases h
          | bool b => cases h
          | num n => cases h
          | arr xs => cases h
          | obj o => cases h
          | str ty =>
              dsimp only at h
              by_cases h1 : ty = "create"
              · rw [if_pos h1] at h
                cases h
                subst h1
                rcases strFieldOpt_shape (lookupA kvs "projectId") with hp | ⟨sp, hp⟩ <;>
                rcases strFieldOpt_shape (lookupA kvs "dueDate") with hd | ⟨sd, hd⟩ <;>
                rcases boolFieldOpt_shape (lookupA kvs "isCompleted") with hc | ⟨bb, hc⟩ <;>
                rcases numFieldOpt_shape (lookupA kvs "nextRetryAt") with hn | ⟨nn, hn⟩ <;>
                rcases strFieldOpt_shape (lookupA kvs "lastError") with hl | ⟨sl, hl⟩ <;>
                  simp [wellFormedOpJ, optEntry, lookupA, jIsStr, jIsNum, jOptStr,
                    jOptNum, jOptBool, hp, hd, hc, hn, hl]
              · rw [if_neg h1] at h
                by_cases h2 : ty = "move"
                · rw [if_pos h2] at h
                  cases h
                  subst h2
                  rcases numFieldOpt_shape (lookupA kvs "nextRetryAt") with hn | ⟨nn, hn⟩ <;>
                  rcases strFieldOpt_shape (lookupA kvs "lastError") with hl | ⟨sl, hl⟩ <;>
                    simp [wellFormedOpJ, optEntry, lookupA, jIsStr, jIsNum, jOptStr,
                      jOptNum, jOptBool, hn, hl]
                · rw [if_neg h2] at h
                  by_cases h3 : ty = "update"
                  · rw [if_pos h3] at h
                    cases h
                    subst h3
                    rcases strFieldOpt_shape (lookupA kvs "dueDate") with hd | ⟨sd, hd⟩ <;>
                    rcases numFieldOpt_shape (lookupA kvs "nextRetryAt") with hn | ⟨nn, hn⟩ <;>
                    rcases strFieldOpt_shape (lookupA kvs "lastError") with hl | ⟨sl, hl⟩ <;>
                      simp [wellFormedOpJ, optEntry, lookupA, jIsStr, jIsNum, jOptStr,
                        jOptNum, jOptBool, hd, hn, hl]
                  · rw [if_neg h3] at h
                    by_cases h4 : ty = "close" ∨ ty = "reopen"
                    · rw [if_pos h4] at h
                      cases h
                      rcases h4 with h4 | h4 <;> subst h4 <;>
                      rcases numFieldOpt_shape (lookupA kvs "nextRetryAt") with hn | ⟨nn, hn⟩ <;>
                      rcases strFieldOpt_shape (lookupA kvs "lastError") with hl | ⟨sl, hl⟩ <;>
                        simp [wellFormedOpJ, optEntry, lookupA, jIsStr, jIsNum, jOptStr,
                          jOptNum, jOptBool, hn, hl]
                    · rw [if_neg h4] at h
                      cases h

theorem containerOr_ok (raw : JVal) (k : String) :
    jsFalsy (containerOr raw k) = false ∧ typeofObject (containerOr raw k) = true := by
  unfold containerOr
  cases h : jLookup raw k with
  | none => exact ⟨rfl, rfl⟩
  | some v =>
      dsimp only
      by_cases hc : (!jsFalsy v && typeofObject v) = true
      · rw [if_pos hc]
        obtain ⟨h1, h2⟩ := Bool.and_eq_true_iff.mp hc
        have h1' : jsFalsy v = false := by
          cases hb : jsFalsy v with
          | false => rfl
          | true => rw [hb] at h1; cases h1
        exact ⟨h1', h2⟩
      · rw [if_neg hc]
        exact ⟨rfl, rfl⟩

/-- Container present as an object-like, truthy value in a migrated
    snapshot. -/
def containerOk (m : JVal) (k : String) : Prop :=
  ∃ v, jLookup m k = some v ∧ jsFalsy v = false ∧ typeofObject v = true

/-- Claim C9 (amended): for every input that is not already a version-2
    snapshot object, `migrateLocalState` returns without failing a state in
    which all containers (tasksById, projectsById, idAliasMap, filterResults,
    filterLastUsedAt, status, lineShadowById) are present object values,
    `queue` is an array, and every retained queue entry is a well-formed
    `SyncOperation`.  A version-2 input is returned as-is (only
    `lineShadowById` is defaulted), so its containers may be missing (see the
    counterexample). -/
theorem claim_C9_migration_safety (fresh : Nat → String) (now : Int) (raw : JVal)
    (hv2 : jsFalsy raw = true ∨ typeofObject raw = false ∨ isSchemaV2 raw = false) :
    containerOk (migrateLocalState fresh now raw) "tasksById" ∧
    containerOk (migrateLocalState fresh now raw) "projectsById" ∧
    containerOk (migrateLocalState fresh now raw) "idAliasMap" ∧
    containerOk (migrateLocalState fresh now raw) "filterResults" ∧
    containerOk (migrateLocalState fresh now raw) "filterLastUsedAt" ∧
    containerOk (migrateLocalState fresh now raw) "status" ∧
    containerOk (migrateLocalState fresh now raw) "lineShadowById" ∧
    (∃ xs, jLookup (migrateLocalState fresh now raw) "queue" = some (JVal.arr xs) ∧
       ∀ e ∈ xs, wellFormedOpJ e = true) := by
  by_cases hb : (jsFalsy raw || !typeofObject raw) = true
  · have hm : migrateLocalState fresh now raw = createDefaultLocalState := by
      unfold migrateLocalState
      rw [if_pos hb]
    rw [hm]
    exact ⟨⟨JVal.obj [], rfl, rfl, rfl⟩, ⟨JVal.obj [], rfl, rfl, rfl⟩,
      ⟨JVal.obj [], rfl, rfl, rfl⟩, ⟨JVal.obj [], rfl, rfl, rfl⟩,
      ⟨JVal.obj [], rfl, rfl, rfl⟩, ⟨JVal.obj [], rfl, rfl, rfl⟩,
      ⟨JVal.obj [], rfl, rfl, rfl⟩, ⟨[], rfl, by simp⟩⟩
  · have hbb := hb
    rw [Bool.or_eq_true, not_or] at hbb
    obtain ⟨hf1, hf2⟩ := hbb
    have hfalse : jsFalsy raw = false := Bool.not_eq_true _ ▸ Bool.of_not_eq_true hf1
    have htrue : typeofObject raw = true := by
      cases ht : typeofObject raw with
      | true => rfl
      | false => exact absurd (by simp [ht]) hf2
    have hv2' : isSchemaV2 raw = false := by
      rcases hv2 with h | h | h
      · rw [h] at hfalse; cases hfalse
      · rw [h] at htrue; cases htrue
      · exact h
    have hnot2 : ¬ (isSchemaV2 raw = true) := by simp [hv2']
    unfold migrateLocalState
    rw [if_neg hb, if_neg hnot2]
    dsimp only
    refine ⟨⟨_, rfl, (containerOr_ok raw _).1, (containerOr_ok raw _).2⟩,
      ⟨_, rfl, (containerOr_ok raw _).1, (containerOr_ok raw _).2⟩,
      ⟨_, rfl, (containerOr_ok raw _).1, (containerOr_ok raw _).2⟩,
      ⟨_, rfl, (containerOr_ok raw _).1, (containerOr_ok raw _).2⟩,
      ⟨_, rfl, (containerOr_ok raw _).1, (containerOr_ok raw _).2⟩,
      ⟨_, rfl, (containerOr_ok raw _).1, (containerOr_ok raw _).2⟩,
      ⟨_, rfl, (containerOr_ok raw _).1, (containerOr_ok raw _).2⟩,
      ⟨_, rfl, ?_⟩⟩
    intro e he
    obtain ⟨iv, hmem, hfe⟩ := List.mem_filterMap.mp he
    exact migrateQueueEntry_wellFormed fresh now iv.1 iv.2 e hfe

/-- Witness for C9: a `null` snapshot and a legacy snapshot with a malformed
    and a valid queue entry. -/
theorem claim_C9_witness :
    (containerOk (migrateLocalState (fun _ => "u") 0 JVal.null) "tasksById" ∧
     (∃ xs, jLookup (migrateLocalState (fun _ => "u") 0 JVal.null) "queue" =
        some (JVal.arr xs) ∧ ∀ e ∈ xs, wellFormedOpJ e = true)) ∧
    (∃ xs, jLookup (migrateLocalState (fun _ => "u") 0
        (JVal.obj [("queue", JVal.arr [JVal.num 5,
          JVal.obj [("type", JVal.str "close"), ("id", JVal.str "9")]])]))
        "queue" = some (JVal.arr xs) ∧ ∀ e ∈ xs, wellFormedOpJ e = true) := by
  have h1 := claim_C9_migration_safety (fun _ => "u") 0 JVal.null (Or.inl rfl)
  have h2 := claim_C9_migration_safety (fun _ => "u") 0
    (JVal.obj [("queue", JVal.arr [JVal.num 5,
      JVal.obj [("type", JVal.str "close"), ("id", JVal.str "9")]])])
    (Or.inr (Or.inr rfl))
  exact ⟨⟨h1.1, h1.2.2.2.2.2.2.2⟩, h2.2.2.2.2.2.2.2⟩

/-- Counterexample for C9 as stated: a snapshot already tagged
    `schemaVersion: 2` is returned as-is (only `lineShadowById` is patched),
    so a version-2 snapshot with missing containers keeps them missing. -/
theorem claim_C9_counterexample :
    jLookup (migrateLocalState (fun _ => "u") 0 (JVal.obj [("schemaVersion", JVal.num 2)]))
      "tasksById" = none := by
  rfl

theorem fold_mem_update (c : String) (op : SyncOperation) (hop : op.type = OpKind.update) :
    ∀ q q' : List SyncOperation, foldIntoPendingCreate c op q = some q' →
      ∃ e ∈ q', e.type = OpKind.create ∧ e.localId = c ∧
        e.content = op.content ∧ e.dueDate = op.dueDate := by
  intro q
  induction q with
  | nil => intro q' h; cases h
  | cons e rest ih =>
      intro q' h
      unfold foldIntoPendingCreate at h
      by_cases hc : e.type = OpKind.create ∧ e.localId = c
      · rw [if_pos hc] at h
        cases h
        refine ⟨foldMutate op e, List.mem_cons_self _ _, ?_, ?_, ?_, ?_⟩
        · rw [foldMutate_type]; exact hc.1
        · rw [foldMutate_localId]; exact hc.2
        · simp [foldMutate, hop]
        · simp [foldMutate, hop]
      · rw [if_neg hc] at h
        cases hrec : foldIntoPendingCreate c op rest with
        | some rest' =>
            rw [hrec] at h
            cases h
            obtain ⟨e', he', hrest⟩ := ih rest' hrec
            exact ⟨e', List.mem_cons_of_mem _ he', hrest⟩
        | none => rw [hrec] at h; cases h

theorem enqueue_update_intent (am : List (String × String)) (q : List SyncOperation)
    (op : SyncOperation) (hop : op.type = OpKind.update) :
    (∃ e ∈ enqueue am q op, e.type = OpKind.update ∧ e.id = op.id ∧
       e.content = op.content ∧ e.dueDate = op.dueDate) ∨
    (∃ e ∈ enqueue am q op, e.type = OpKind.create ∧ e.localId = resolveA am op.id ∧
       e.content = op.content ∧ e.dueDate = op.dueDate) := by
  rcases enqueue_cases am q op with
    ⟨q', hf, henq⟩ | ⟨q', _, hr0, henq⟩ | ⟨q', htype, _, _⟩ | ⟨q', htype, _, _⟩ |
    ⟨henq, _, _, _⟩
  · right
    rw [henq]
    exact fold_mem_update _ op hop q q' hf
  · left
    rw [henq]
    exact ⟨op, replaceLast_mem _ _ _ _ hr0, hop, rfl, rfl, rfl⟩
  · rw [hop] at htype; cases htype
  · rcases htype with h | h <;> (rw [hop] at h; cases h)
  · left
    rw [henq]
    exact ⟨op, by simp, hop, rfl, rfl, rfl⟩

/-- Claim C10 (amended): for an id whose resolved canonical id has no cached
    TaskRecord, `updateTask` inserts a fresh TaskRecord under the resolved id
    with the given content and dueDate, `isCompleted = false`,
    `source = 'local'`, records the update intent in the queue — as a queued
    `update` op, or folded into a pending `create` for the id when one exists
    (see the counterexample for the latter) — and resolves to `true`. -/
theorem claim_C10_update_unknown_id (st : ServiceState) (id content : String)
    (dueDate : Option String) (opId : String) (now : Nat)
    (hnone : lookupA st.tasksById (resolveTaskId st id) = none) :
    (updateTask st id content dueDate opId now).2 = true ∧
    lookupA (updateTask st id content dueDate opId now).1.tasksById (resolveTaskId st id) =
      some ⟨resolveTaskId st id, content, false, none, dueDate, none, some false,
        TaskSource.loc, now, none⟩ ∧
    ((∃ e ∈ (updateTask st id content dueDate opId now).1.queue,
        e.type = OpKind.update ∧ e.id = resolveTaskId st id ∧
        e.content = content ∧ e.dueDate = dueDate) ∨
     (∃ e ∈ (updateTask st id content dueDate opId now).1.queue,
        e.type = OpKind.create ∧ e.localId = resolveA st.idAliasMap (resolveTaskId st id) ∧
        e.content = content ∧ e.dueDate = dueDate)) := by
  refine ⟨rfl, ?_, ?_⟩
  · simp [updateTask, hnone, lookupA_setA_self]
  · have hqueue : (updateTask st id content dueDate opId now).1.queue =
        enqueue st.idAliasMap st.queue
          (mkUpdateOp opId (resolveTaskId st id) content dueDate now) := by
      simp [updateTask, hnone]
    have h := enqueue_update_intent st.idAliasMap st.queue
      (mkUpdateOp opId (resolveTaskId st id) content dueDate now) rfl
    rw [hqueue]
    rcases h with ⟨e, hmem, h1, h2, h3, h4⟩ | ⟨e, hmem, h1, h2, h3, h4⟩
    · exact Or.inl ⟨e, hmem, h1, h2, h3, h4⟩
    · exact Or.inr ⟨e, hmem, h1, h2, h3, h4⟩

/-- Witness for C10 at the empty state. -/
theorem claim_C10_witness :
    (updateTask ⟨[], [], [], [], []⟩ "7" "b" none "u1" 5).2 = true ∧
    lookupA (updateTask ⟨[], [], [], [], []⟩ "7" "b" none "u1" 5).1.tasksById "7" =
      some ⟨"7", "b", false, none, none, none, some false, TaskSource.loc, 5, none⟩ ∧
    ((∃ e ∈ (updateTask ⟨[], [], [], [], []⟩ "7" "b" none "u1" 5).1.queue,
        e.type = OpKind.update ∧ e.id = "7" ∧ e.content = "b" ∧ e.dueDate = none) ∨
     (∃ e ∈ (updateTask ⟨[], [], [], [], []⟩ "7" "b" none "u1" 5).1.queue,
        e.type = OpKind.create ∧ e.localId = "7" ∧ e.content = "b" ∧ e.dueDate = none)) :=
  claim_C10_update_unknown_id ⟨[], [], [], [], []⟩ "7" "b" none "u1" 5 (by decide)

/-- Counterexample for C10 as stated: when the queue already holds a pending
    `create` for the (uncached) canonical id, the new intent is folded into
    the `create` and no separate `update` operation is enqueued. -/
theorem claim_C10_counterexample :
    ((updateTask ⟨[], [], [], [mkCreateOp "c1" "local-1" "a" none none 1], []⟩
        "local-1" "b" none "u1" 5).1.queue.countP
      (fun e => decide (e.type = OpKind.update))) = 0 := by
  decide
